import Mathlib

/-!
Verification of the builtin/expression lowering stage of the wuffs C code
generator (`internal/cgen`: `builtin.go` and the expression writer).

The development has two layers.

Layer 1 (generated-code semantics): the C code templates that
`writeBuiltinTokenWriter`, `writeReadUxxAsUyy`, `writeBuiltinNumType` and
`writeBuiltinQuestionCall` emit are given an arithmetic denotation over
`Nat`, with every C `uint64_t` assignment taken modulo `2 ^ 64`.  The
denotations are transcribed from the emitted C text that appears in the
Go source, and the relevant Go line numbers are cited next to each
definition.

Layer 2 (generator embedding): the dispatch and error-handling structure
of the generator itself (`writeBuiltinCall`, `recvName`, `writeExpr`,
`writeExprOther`, the slice-copy peephole, the skip lowering and the
function context) is embedded over a small expression AST mirroring the
parts of the `a.Expr` / `a.TypeExpr` interface that this file inspects.

Constants and helpers that live outside this slice of the repository
(the runtime library token shift constants, the name prefixes, the
`sizeof` helper, `MaxExprDepth`, `maxTemp`, `writeCoroSuspPoint`) are
modelled from the specification; each such definition carries a doc
comment starting with `Modelled from the spec:`.
-/

namespace Wuffs

/-- C `uint64_t` assignment semantics: the stored value wraps modulo `2 ^ 64`. -/
def u64 (x : Nat) : Nat := x % 2 ^ 64

/-! ### Token wire format (writeBuiltinTokenWriter, builtin.go lines 402-447) -/

/-- Modelled from the spec: the numeric value of the named shift constant
`WUFFS_BASE__TOKEN__VALUE_MAJOR__SHIFT`.  `builtin.go` emits the *names* of
the token shift constants; their numeric values live in the runtime support
library, outside this repository slice.  The spec fixes them as fixed,
non-overlapping bit offsets of the packed 64-bit token (value-major,
value-minor or value-extension, continued flag, length); the standard
values are used here. -/
def VALUE_MAJOR__SHIFT : Nat := 42

/-- Modelled from the spec: `WUFFS_BASE__TOKEN__VALUE_MINOR__SHIFT`. -/
def VALUE_MINOR__SHIFT : Nat := 17

/-- Modelled from the spec: `WUFFS_BASE__TOKEN__VALUE_EXTENSION__SHIFT`. -/
def VALUE_EXTENSION__SHIFT : Nat := 17

/-- Modelled from the spec: `WUFFS_BASE__TOKEN__CONTINUED__SHIFT`. -/
def CONTINUED__SHIFT : Nat := 16

/-- Modelled from the spec: `WUFFS_BASE__TOKEN__LENGTH__SHIFT`. -/
def LENGTH__SHIFT : Nat := 0

/-- The value of the C expression emitted for `write_simple_token_fast`
(builtin.go lines 411-443): a bitwise OR of up to four sub-fields, each
left-shifted by its named shift constant.  The value-major term is skipped
when the value-major argument constant-folds to zero (`vmajSkip`), and
likewise the continued term (`contSkip`), per the `ConstValue()` tests at
lines 413 and 432.  Each operand carries an explicit `(uint64_t)` cast, so
every term is a 64-bit value. -/
def simpleTokenFastValue (vmajSkip contSkip : Bool) (vmaj vmin cont len : Nat) : Nat :=
  u64 ((((if vmajSkip then 0 else u64 (vmaj <<< VALUE_MAJOR__SHIFT)) |||
         u64 (vmin <<< VALUE_MINOR__SHIFT)) |||
        (if contSkip then 0 else u64 (cont <<< CONTINUED__SHIFT))) |||
       u64 (len <<< LENGTH__SHIFT))

/-- The value of the C expression emitted for `write_extended_token_fast`
(builtin.go lines 424-443): the value-major/value-minor pair is replaced by
the complemented extension value shifted by `VALUE_EXTENSION__SHIFT`
(`(~ext << WUFFS_BASE__TOKEN__VALUE_EXTENSION__SHIFT)`), OR-ed with the
continued and length terms.  On `uint64_t`, `~ext` is `2 ^ 64 - 1 - ext`.
The continued term is skipped when its argument constant-folds to zero. -/
def extendedTokenFastValue (contSkip : Bool) (ext cont len : Nat) : Nat :=
  u64 ((u64 ((2 ^ 64 - 1 - ext % 2 ^ 64) <<< VALUE_EXTENSION__SHIFT) |||
        (if contSkip then 0 else u64 (cont <<< CONTINUED__SHIFT))) |||
       u64 (len <<< LENGTH__SHIFT))

/-- Decoding the value-major sub-field: right-shift by its offset and mask
to its width (the bits from `VALUE_MAJOR__SHIFT` up to bit 63). -/
def tokenValueMajor (tok : Nat) : Nat :=
  (tok >>> VALUE_MAJOR__SHIFT) &&& (2 ^ (64 - VALUE_MAJOR__SHIFT) - 1)

/-- Decoding the value-minor sub-field (bits `VALUE_MINOR__SHIFT` up to
`VALUE_MAJOR__SHIFT - 1`). -/
def tokenValueMinor (tok : Nat) : Nat :=
  (tok >>> VALUE_MINOR__SHIFT) &&& (2 ^ (VALUE_MAJOR__SHIFT - VALUE_MINOR__SHIFT) - 1)

/-- Decoding the value-extension sub-field (bits `VALUE_EXTENSION__SHIFT`
up to bit 63). -/
def tokenValueExtension (tok : Nat) : Nat :=
  (tok >>> VALUE_EXTENSION__SHIFT) &&& (2 ^ (64 - VALUE_EXTENSION__SHIFT) - 1)

/-- Decoding the continued sub-field (the single bit at `CONTINUED__SHIFT`). -/
def tokenContinued (tok : Nat) : Nat :=
  (tok >>> CONTINUED__SHIFT) &&& (2 ^ (VALUE_MINOR__SHIFT - CONTINUED__SHIFT) - 1)

/-- Decoding the length sub-field (bits 0 up to `CONTINUED__SHIFT - 1`). -/
def tokenLength (tok : Nat) : Nat :=
  (tok >>> LENGTH__SHIFT) &&& (2 ^ (CONTINUED__SHIFT - LENGTH__SHIFT) - 1)

/-! ### The multi-byte read state machine (writeReadUxxAsUyy, builtin.go
lines 1166-1252)

`writeReadUxxAsUyy` emits, for an `xx`-bits-as-`yy`-bits suspending read:

* a fast path, guarded by `io2 - iop >= xx/8`, that performs one bulk
  `wuffs_base__peek_uXX(b|l)e__no_bounds_check(iop)` with a widening cast
  to `uintYY_t` when `xx != yy`, and advances `iop` by `xx/8`;

* otherwise a `while (true)` loop that first zeroes the function-scoped
  scratch slot, then on each iteration suspends with
  `wuffs_base__suspension__short_read` when `iop == io2`, else consumes
  one byte and folds it into the scratch word, committing the widened
  result exactly when the recovered accumulated-bit count equals `xx - 8`.
-/

inductive Endianness where
  | be
  | le
deriving DecidableEq, Repr

/-- One iteration of the emitted byte-at-a-time loop body (builtin.go lines
1219-1248), acting on the persisted 64-bit scratch word and the consumed
input byte.  Mirrors the C text:

big-endian (`'b'`):
`num_bits = scratch & 0xFF; scratch >>= 8; scratch <<= 8;`
`scratch |= byte << (56 - num_bits);`
`if (num_bits == xx-8) return (uintYY)(scratch >> (64-xx));`
`num_bits += 8; scratch |= num_bits;`

little-endian (`'l'`):
`num_bits = scratch >> 56; scratch <<= 8; scratch >>= 8;`
`scratch |= byte << num_bits;`
`if (num_bits == xx-8) return (uintYY)(scratch);`
`num_bits += 8; scratch |= num_bits << 56;`

`.inl s` continues the loop with updated scratch `s` (the state that
persists across a suspension); `.inr t` commits the widened value `t`. -/
def readLoopStep (xx yy : Nat) (e : Endianness) (scratch byte : Nat) : Nat ⊕ Nat :=
  match e with
  | .be =>
    let num_bits := scratch &&& 0xFF
    let s1 := u64 ((scratch >>> 8) <<< 8)
    let s2 := u64 (s1 ||| u64 (byte <<< (56 - num_bits)))
    if num_bits = xx - 8 then
      .inr ((s2 >>> (64 - xx)) % 2 ^ yy)
    else
      .inl (u64 (s2 ||| u64 (num_bits + 8)))
  | .le =>
    let num_bits := scratch >>> 56
    let s1 := u64 (u64 (scratch <<< 8) >>> 8)
    let s2 := u64 (s1 ||| u64 (byte <<< num_bits))
    if num_bits = xx - 8 then
      .inr (s2 % 2 ^ yy)
    else
      .inl (u64 (s2 ||| u64 ((num_bits + 8) <<< 56)))

/-- Running the emitted loop over the bytes available in the current
invocation, starting from the persisted scratch word.  `.inl s` models a
short-read suspension (input exhausted; `s` is the scratch value that the
next invocation resumes from); `.inr (t, rest)` models committing the
widened value `t` with `rest` left unconsumed. -/
def readLoopRun (xx yy : Nat) (e : Endianness) : Nat → List Nat → Nat ⊕ (Nat × List Nat)
  | scratch, [] => .inl scratch
  | scratch, byte :: rest =>
    match readLoopStep xx yy e scratch byte with
    | .inl s => readLoopRun xx yy e s rest
    | .inr t => .inr (t, rest)

/-- The big-endian integer denoted by a byte list, most significant byte
first, accumulated from a starting value. -/
def beValueFrom (v : Nat) : List Nat → Nat
  | [] => v
  | b :: bs => beValueFrom (v * 256 + b) bs

/-- The little-endian integer denoted by a byte list, least significant
byte first. -/
def leValue : List Nat → Nat
  | [] => 0
  | b :: bs => b + 256 * leValue bs

/-- Modelled from the spec: the value of the bulk library peek function
`wuffs_base__peek_uXX(b|l)e__no_bounds_check` whose call the fast path
emits (builtin.go line 1202).  The function itself lives in the runtime
support library; the spec requires it to produce the arithmetically
correct big/little-endian integer of the next `xx/8` bytes. -/
def peekValue (e : Endianness) (bs : List Nat) : Nat :=
  match e with
  | .be => beValueFrom 0 bs
  | .le => leValue bs

/-- The denotation of the whole emitted suspend point: the fast path fires
when at least `xx/8` bytes are available (one bulk peek, widening cast,
cursor advanced by `xx/8`); otherwise the byte-at-a-time loop runs from a
zeroed scratch slot (builtin.go lines 1197-1213). -/
def readUxxAsUyyRun (xx yy : Nat) (e : Endianness) (bs : List Nat) : Nat ⊕ (Nat × List Nat) :=
  if xx / 8 ≤ bs.length then
    .inr (peekValue e (bs.take (xx / 8)) % 2 ^ yy, bs.drop (xx / 8))
  else
    readLoopRun xx yy e 0 bs

/-! ### low_bits lowering (writeBuiltinNumType, builtin.go lines 757-787) -/

/-- The two mask forms `low_bits(n:etc)` can lower to: a precomputed
literal bitmask, or a call to the width-specific runtime mask constructor
`WUFFS_BASE__LOW_BITS_MASK__U{width}(n)`. -/
inductive LowBitsMask where
  | literal (mask : Nat)
  | runtime (width : Nat)
deriving DecidableEq, Repr

/-- The generator's choice of mask for `low_bits` (builtin.go lines
769-784): when the argument has a constant value `cv` with
`cv.Sign() >= 0 && cv.Cmp(sixtyFour) <= 0`, the literal mask
`(1 << cv) - 1` is printed; otherwise the runtime constructor for width
`8 * sizeof(receiver)` is called. -/
def lowBitsMaskChoice (cv : Option Int) (sizeofRecv : Nat) : LowBitsMask :=
  match cv with
  | some v => if 0 ≤ v ∧ v ≤ 64 then .literal (1 <<< v.toNat - 1)
              else .runtime (8 * sizeofRecv)
  | none => .runtime (8 * sizeofRecv)

/-- Modelled from the spec: the value of the runtime mask constructor
`WUFFS_BASE__LOW_BITS_MASK__U{width}(n)`, which lives in the runtime
support library.  The spec requires it to equal `(1 << n) - 1` for every
`n` in `[0, width]`. -/
def lowBitsMaskRuntime (_width n : Nat) : Nat := 1 <<< n - 1

/-! ### The skip suspend point (writeBuiltinQuestionCall, builtin.go lines
1087-1122)

For a skip whose byte count constant-folds to 1, the emitted code is a
single availability check (`if (iop == io2) suspend;`) followed by
`iop++`, with no loop and no scratch-slot use.  Otherwise the remaining
count is stored in the function-scoped scratch slot; each invocation with
`avail` bytes available either suspends short-read after consuming all
`avail` bytes and decrementing the scratch by `avail`
(`scratch -= io2 - iop; iop = io2;`), or completes, advancing the cursor
by the remaining scratch count (`iop += scratch`). -/

/-- One invocation of the generated general-skip suspend point, given the
persisted remaining count and the currently available byte count.
`.inl (remaining, consumed)` is a short-read suspension; `.inr consumed`
is completion. -/
def skipStep (scratch avail : Nat) : (Nat × Nat) ⊕ Nat :=
  if avail < scratch then .inl (scratch - avail, avail)
  else .inr scratch

/-- Repeated invocations of the general-skip suspend point, one per entry
of `avails` (the bytes available at each re-invocation).  Returns
`.inl (remaining, totalConsumed)` if still suspended after all
invocations, `.inr totalConsumed` on completion. -/
def skipRun : Nat → List Nat → (Nat × Nat) ⊕ Nat
  | scratch, [] => .inl (scratch, 0)
  | scratch, avail :: rest =>
    match skipStep scratch avail with
    | .inl (s, consumed) =>
      match skipRun s rest with
      | .inl (s2, c2) => .inl (s2, consumed + c2)
      | .inr c2 => .inr (consumed + c2)
    | .inr consumed => .inr consumed

/-! ### The generator embedding

A small AST mirroring the parts of the front end's `a.Expr` / `a.TypeExpr`
interface that `builtin.go` and the expression writer inspect.  Constant
folding is upstream work: a node whose `ConstValue()` is non-nil is
modelled as a `lit` leaf carrying its folded value and the literal-type
class the writer dispatches on.  Type annotations produced by the type
checker are carried exactly where this file consults them: the receiver
type on call nodes, and the is-slice / array-length facts on index and
slice nodes. -/

/-- The package half of a `t.QID`: 0 (the package being generated),
`t.IDBase`, or another used package. -/
inductive Pkg where
  | current
  | base
  | user (nm : String)
deriving DecidableEq, Repr

/-- The qualified-identifier names this file dispatches on.  The nine ARM
Neon vector types are collapsed to one constructor (`armNeon`); the signed
numeric types are omitted (no builtin lowering in this file distinguishes
them from the unsigned ones it handles). -/
inductive TypName where
  | imageConfig
  | frameConfig
  | u8
  | u16
  | u32
  | u64
  | armCrc32Utility
  | armCrc32U32
  | armNeon
  | x86SSE42Utility
  | x86M128I
  | ioReader
  | ioWriter
  | tokenWriter
  | pixelSwizzler
  | utility
  | userDefined (nm : String)
deriving DecidableEq, Repr

/-- A qualified identifier `t.QID`: package and name. -/
structure MQID where
  pkg : Pkg
  nm : TypName
deriving DecidableEq, Repr

/-- A `TypeExpr` decorator other than 0. -/
inductive Deco where
  | nptr
  | ptr
  | array
  | slice
  | table
deriving DecidableEq, Repr

/-- `a.TypeExpr`: an optional decorator chain bottoming out in a qualified
identifier. -/
inductive MType where
  | base (qid : MQID)
  | deco (d : Deco) (inner : MType)
deriving DecidableEq, Repr

/-- `TypeExpr.Decorator()`: `none` stands for the zero decorator. -/
def MType.decorator : MType → Option Deco
  | .base _ => none
  | .deco d _ => some d

/-- `TypeExpr.Inner()`. -/
def MType.inner : MType → MType
  | .base q => .base q
  | .deco _ i => i

/-- `TypeExpr.QID()` (meaningful on decorator-0 types). -/
def MType.qid : MType → MQID
  | .base q => q
  | .deco _ i => i.qid

/-- `t.ID.IsNumType()` restricted to the unsigned types modelled here. -/
def TypName.isNumType : TypName → Bool
  | .u8 | .u16 | .u32 | .u64 => true
  | _ => false

/-- `t.ID.IsBuiltInCPUArch()`. -/
def TypName.isBuiltInCPUArch : TypName → Bool
  | .armCrc32Utility | .armCrc32U32 | .armNeon | .x86SSE42Utility | .x86M128I => true
  | _ => false

/-- `TypeExpr.IsSliceType()`. -/
def MType.isSliceType : MType → Bool
  | .deco .slice _ => true
  | _ => false

/-- `TypeExpr.IsIOTokenType()`, restricted to the reader/writer/token-writer
types modelled here. -/
def MType.isIOTokenType : MType → Bool
  | .base ⟨.base, .ioReader⟩ => true
  | .base ⟨.base, .ioWriter⟩ => true
  | .base ⟨.base, .tokenWriter⟩ => true
  | _ => false

/-- The literal-type class the expression writer's constant branch
dispatches on (`IsNumTypeOrIdeal` / `IsNullptr` / `IsStatus` / `IsBool`,
expr.go lines 1381-1400). -/
inductive LitType where
  | num
  | nullptr
  | status
  | boolT
  | otherT
deriving DecidableEq, Repr

/-- The method identifiers (`t.ID`) this file's dispatch inspects.  The
dense peek/poke/read/write-fast families are carried as their descriptor
parameters (bit widths and endianness); whether a parameter combination is
an actual member of the family is the corresponding table's membership
test below, mirroring the zero-width "missing" sentinel of the Go arrays.
`other` stands for every identifier this file never names. -/
inductive MethodID where
  | set
  | length
  | copyFromSlice
  | suffix
  | uintptrLow12Bits
  | height
  | stride
  | width
  | row
  | lowBits
  | highBits
  | max
  | min
  | validUTF8Length
  | undoByte
  | canUndoByte
  | limitedCopyU32ToSlice
  | countSince
  | isClosed
  | mark
  | match7
  | peekU64LEAt
  | position
  | since
  | skipU32Fast
  | historyLength
  | limitedCopyU32FromHistory
  | limitedCopyU32FromHistory8ByteChunksDistance1Fast
  | limitedCopyU32FromHistory8ByteChunksFast
  | limitedCopyU32FromHistoryFast
  | limitedCopyU32FromReader
  | limitedCopyU32FromSlice
  | limitedSwizzleU32InterleavedFromReader
  | swizzleInterleavedFromReader
  | writeSimpleTokenFast
  | writeExtendedTokenFast
  | cpuArchIs32Bit
  | emptyIOReader
  | emptyIOWriter
  | readU8
  | readU8AsU32
  | readU8AsU64
  | skip
  | skipU32
  | writeU8
  | read (xx yy : Nat) (e : Endianness)
  | peek (xx yy : Nat) (e : Endianness)
  | poke (xx : Nat) (e : Endianness)
  | writeFast (xx : Nat) (e : Endianness)
  | reset
  | other (nm : String)
deriving Repr

/-- Injective numeric encoding of `MethodID`, used only to decide
equality with a term linear in the number of constructors. -/
def Endianness.enc : Endianness → Nat
  | .be => 0
  | .le => 1

/-- See `Endianness.enc`. -/
def MethodID.enc : MethodID → Nat × Nat × Nat × Nat × String
  | .set => (0, 0, 0, 0, "")
  | .length => (1, 0, 0, 0, "")
  | .copyFromSlice => (2, 0, 0, 0, "")
  | .suffix => (3, 0, 0, 0, "")
  | .uintptrLow12Bits => (4, 0, 0, 0, "")
  | .height => (5, 0, 0, 0, "")
  | .stride => (6, 0, 0, 0, "")
  | .width => (7, 0, 0, 0, "")
  | .row => (8, 0, 0, 0, "")
  | .lowBits => (9, 0, 0, 0, "")
  | .highBits => (10, 0, 0, 0, "")
  | .max => (11, 0, 0, 0, "")
  | .min => (12, 0, 0, 0, "")
  | .validUTF8Length => (13, 0, 0, 0, "")
  | .undoByte => (14, 0, 0, 0, "")
  | .canUndoByte => (15, 0, 0, 0, "")
  | .limitedCopyU32ToSlice => (16, 0, 0, 0, "")
  | .countSince => (17, 0, 0, 0, "")
  | .isClosed => (18, 0, 0, 0, "")
  | .mark => (19, 0, 0, 0, "")
  | .match7 => (20, 0, 0, 0, "")
  | .peekU64LEAt => (21, 0, 0, 0, "")
  | .position => (22, 0, 0, 0, "")
  | .since => (23, 0, 0, 0, "")
  | .skipU32Fast => (24, 0, 0, 0, "")
  | .historyLength => (25, 0, 0, 0, "")
  | .limitedCopyU32FromHistory => (26, 0, 0, 0, "")
  | .limitedCopyU32FromHistory8ByteChunksDistance1Fast => (27, 0, 0, 0, "")
  | .limitedCopyU32FromHistory8ByteChunksFast => (28, 0, 0, 0, "")
  | .limitedCopyU32FromHistoryFast => (29, 0, 0, 0, "")
  | .limitedCopyU32FromReader => (30, 0, 0, 0, "")
  | .limitedCopyU32FromSlice => (31, 0, 0, 0, "")
  | .limitedSwizzleU32InterleavedFromReader => (32, 0, 0, 0, "")
  | .swizzleInterleavedFromReader => (33, 0, 0, 0, "")
  | .writeSimpleTokenFast => (34, 0, 0, 0, "")
  | .writeExtendedTokenFast => (35, 0, 0, 0, "")
  | .cpuArchIs32Bit => (36, 0, 0, 0, "")
  | .emptyIOReader => (37, 0, 0, 0, "")
  | .emptyIOWriter => (38, 0, 0, 0, "")
  | .readU8 => (39, 0, 0, 0, "")
  | .readU8AsU32 => (40, 0, 0, 0, "")
  | .readU8AsU64 => (41, 0, 0, 0, "")
  | .skip => (42, 0, 0, 0, "")
  | .skipU32 => (43, 0, 0, 0, "")
  | .writeU8 => (44, 0, 0, 0, "")
  | .reset => (45, 0, 0, 0, "")
  | .read xx yy e => (100, xx, yy, e.enc, "")
  | .peek xx yy e => (101, xx, yy, e.enc, "")
  | .poke xx e => (102, xx, 0, e.enc, "")
  | .writeFast xx e => (103, xx, 0, e.enc, "")
  | .other nm => (104, 0, 0, 0, nm)

/-- Decoder for `MethodID.enc` (a retraction, making the encoding
injective). -/
def MethodID.dec : Nat × Nat × Nat × Nat × String → MethodID
  | (0, _, _, _, _) => .set
  | (1, _, _, _, _) => .length
  | (2, _, _, _, _) => .copyFromSlice
  | (3, _, _, _, _) => .suffix
  | (4, _, _, _, _) => .uintptrLow12Bits
  | (5, _, _, _, _) => .height
  | (6, _, _, _, _) => .stride
  | (7, _, _, _, _) => .width
  | (8, _, _, _, _) => .row
  | (9, _, _, _, _) => .lowBits
  | (10, _, _, _, _) => .highBits
  | (11, _, _, _, _) => .max
  | (12, _, _, _, _) => .min
  | (13, _, _, _, _) => .validUTF8Length
  | (14, _, _, _, _) => .undoByte
  | (15, _, _, _, _) => .canUndoByte
  | (16, _, _, _, _) => .limitedCopyU32ToSlice
  | (17, _, _, _, _) => .countSince
  | (18, _, _, _, _) => .isClosed
  | (19, _, _, _, _) => .mark
  | (20, _, _, _, _) => .match7
  | (21, _, _, _, _) => .peekU64LEAt
  | (22, _, _, _, _) => .position
  | (23, _, _, _, _) => .since
  | (24, _, _, _, _) => .skipU32Fast
  | (25, _, _, _, _) => .historyLength
  | (26, _, _, _, _) => .limitedCopyU32FromHistory
  | (27, _, _, _, _) => .limitedCopyU32FromHistory8ByteChunksDistance1Fast
  | (28, _, _, _, _) => .limitedCopyU32FromHistory8ByteChunksFast
  | (29, _, _, _, _) => .limitedCopyU32FromHistoryFast
  | (30, _, _, _, _) => .limitedCopyU32FromReader
  | (31, _, _, _, _) => .limitedCopyU32FromSlice
  | (32, _, _, _, _) => .limitedSwizzleU32InterleavedFromReader
  | (33, _, _, _, _) => .swizzleInterleavedFromReader
  | (34, _, _, _, _) => .writeSimpleTokenFast
  | (35, _, _, _, _) => .writeExtendedTokenFast
  | (36, _, _, _, _) => .cpuArchIs32Bit
  | (37, _, _, _, _) => .emptyIOReader
  | (38, _, _, _, _) => .emptyIOWriter
  | (39, _, _, _, _) => .readU8
  | (40, _, _, _, _) => .readU8AsU32
  | (41, _, _, _, _) => .readU8AsU64
  | (42, _, _, _, _) => .skip
  | (43, _, _, _, _) => .skipU32
  | (44, _, _, _, _) => .writeU8
  | (45, _, _, _, _) => .reset
  | (100, xx, yy, 0, _) => .read xx yy .be
  | (100, xx, yy, _, _) => .read xx yy .le
  | (101, xx, yy, 0, _) => .peek xx yy .be
  | (101, xx, yy, _, _) => .peek xx yy .le
  | (102, xx, _, 0, _) => .poke xx .be
  | (102, xx, _, _, _) => .poke xx .le
  | (103, xx, _, 0, _) => .writeFast xx .be
  | (103, xx, _, _, _) => .writeFast xx .le
  | (104, _, _, _, nm) => .other nm
  | _ => .set

/-- `MethodID.dec` retracts `MethodID.enc`. -/
theorem MethodID.dec_enc : ∀ m : MethodID, MethodID.dec (MethodID.enc m) = m := by
  intro m
  cases m <;> first
    | rfl
    | (rename_i e; cases e <;> rfl)

instance : DecidableEq MethodID := fun a b =>
  if h : a.enc = b.enc then
    .isTrue (by
      have h2 := congrArg MethodID.dec h
      rwa [MethodID.dec_enc, MethodID.dec_enc] at h2)
  else .isFalse (fun hh => h (congrArg MethodID.enc hh))

/-- The `readMethods` table content (builtin.go lines 1256-1289), minus
the 8-bit rows, which the earlier switch at line 1064 intercepts before
the table is consulted: each triple is (input bits `xx`, result bits
`yy`, endianness). -/
def readMethodsList : List (Nat × Nat × Endianness) :=
  [(16, 16, .be), (16, 16, .le),
   (16, 32, .be), (16, 32, .le), (24, 32, .be), (24, 32, .le), (32, 32, .be), (32, 32, .le),
   (16, 64, .be), (16, 64, .le), (24, 64, .be), (24, 64, .le), (32, 64, .be), (32, 64, .le),
   (40, 64, .be), (40, 64, .le), (48, 64, .be), (48, 64, .le), (56, 64, .be), (56, 64, .le),
   (64, 64, .be), (64, 64, .le)]

/-- The `peekMethods` table content (builtin.go lines 1293-1330): (peeked
bits `xx`, result bits `yy`, endianness). -/
def peekMethodsList : List (Nat × Nat × Endianness) :=
  [(8, 8, .be),
   (16, 16, .be), (16, 16, .le),
   (8, 32, .be), (16, 32, .be), (16, 32, .le), (24, 32, .be), (24, 32, .le), (32, 32, .be), (32, 32, .le),
   (8, 64, .be), (16, 64, .be), (16, 64, .le), (24, 64, .be), (24, 64, .le), (32, 64, .be), (32, 64, .le),
   (40, 64, .be), (40, 64, .le), (48, 64, .be), (48, 64, .le), (56, 64, .be), (56, 64, .le),
   (64, 64, .be), (64, 64, .le)]

/-- The poke family widths (slice `poke_u..` methods, builtin.go line 901). -/
def pokeWidthsList : List Nat := [8, 16, 24, 32, 40, 48, 56, 64]

/-- The `writeFastMethods` table content (builtin.go lines 1332-1349). -/
def writeFastMethodsList : List (Nat × Endianness) :=
  [(8, .be),
   (16, .be), (16, .le), (24, .be), (24, .le), (32, .be), (32, .le),
   (40, .be), (40, .le), (48, .be), (48, .le), (56, .be), (56, .le),
   (64, .be), (64, .le)]

/-- `a.Expr`, restricted to the node shapes this file's writers dispatch
on.  `lit` models a node whose upstream-folded `ConstValue()` is non-nil.
`indexOp` carries the type checker's is-slice fact about its left operand;
`sliceOp` carries the left operand's array length when it is an array type
(`none` when it is a slice). -/
inductive MExpr where
  | ident (nm : String)
  | lit (typ : LitType) (v : Int)
  | dot (lhs : MExpr) (nm : String)
  | binPlus (lhs rhs : MExpr)
  | unaryNeg (rhs : MExpr)
  | assoc (args : List MExpr)
  | indexOp (lhsIsSlice : Bool) (lhs rhs : MExpr)
  | sliceOp (lhsArrayLen : Option Nat) (lhs : MExpr) (mhs rhs : Option MExpr)
  | call (recvTyp : MType) (recv : MExpr) (method : MethodID) (coroutine : Bool)
         (args : List (String × MExpr))

/-- `a.Expr.Eq`: deep structural equality of expression trees, used by the
slice-copy peephole matcher to compare the two bounds. -/
def MExpr.eqb : MExpr → MExpr → Bool
  | .ident a, .ident b => a = b
  | .lit t v, .lit t2 v2 => t = t2 && v = v2
  | .dot l a, .dot l2 a2 => a = a2 && l.eqb l2
  | .binPlus l r, .binPlus l2 r2 => l.eqb l2 && r.eqb r2
  | .unaryNeg r, .unaryNeg r2 => r.eqb r2
  | .assoc as1, .assoc as2 => listEqb as1 as2
  | .indexOp s l r, .indexOp s2 l2 r2 => s = s2 && l.eqb l2 && r.eqb r2
  | .sliceOp al l m r, .sliceOp al2 l2 m2 r2 =>
    al = al2 && l.eqb l2 && optEqb m m2 && optEqb r r2
  | .call rt r m c as1, .call rt2 r2 m2 c2 as2 =>
    rt = rt2 && m = m2 && c = c2 && r.eqb r2 && argsEqb as1 as2
  | _, _ => false
where
  listEqb : List MExpr → List MExpr → Bool
    | [], [] => true
    | a :: t1, b :: t2 => a.eqb b && listEqb t1 t2
    | _, _ => false
  optEqb : Option MExpr → Option MExpr → Bool
    | none, none => true
    | some a, some b => a.eqb b
    | _, _ => false
  argsEqb : List (String × MExpr) → List (String × MExpr) → Bool
    | [], [] => true
    | (n1, e1) :: t1, (n2, e2) :: t2 => n1 = n2 && e1.eqb e2 && argsEqb t1 t2
    | _, _ => false

/-- `Expr.ConstValue()`: the folded constant attached by the upstream
constant folder, present exactly on `lit` leaves in this model. -/
def MExpr.constValue : MExpr → Option Int
  | .lit _ v => some v
  | _ => none

/-- Modelled from the spec: the fixed local-variable name prefix (the
prefixes live in the codegen driver outside this slice; the spec requires
distinct prefixes for locals, arguments, cursors and scratch state). -/
def vPrefix : String := "v_"

/-- Modelled from the spec: the call-argument name prefix. -/
def aPrefix : String := "a_"

/-- Modelled from the spec: the I/O current-cursor pointer prefix. -/
def iopPrefix : String := "iop_"

/-- Modelled from the spec: the I/O lower-bound pointer prefix. -/
def io0Prefix : String := "io0_"

/-- Modelled from the spec: the I/O mark pointer prefix. -/
def io1Prefix : String := "io1_"

/-- Modelled from the spec: the I/O upper-bound pointer prefix. -/
def io2Prefix : String := "io2_"

/-- Modelled from the spec: the coroutine scratch-state struct prefix. -/
def sPrefix : String := "s_"

/-- Modelled from the spec: the synthesized-temporary name prefix. -/
def tPrefix : String := "t_"

/-- Modelled from the spec: the coroutine resumption-counter prefix. -/
def pPrefix : String := "p_"

/-- Modelled from the spec: the struct-field name prefix. -/
def fPrefix : String := "f_"

/-- Modelled from the spec: the fixed expression recursion-depth ceiling
`a.MaxExprDepth` (defined in the AST package, outside this slice). -/
def MaxExprDepth : Nat := 255

/-- Modelled from the spec: the fixed ceiling on synthesized temporaries
per function (`maxTemp`, defined in the codegen driver outside this
slice); exceeding it is a resource-limit error. -/
def maxTemp : Nat := 10000

/-- The error discipline of the generator: the two internal control
signals are distinguished values (`errNoSuchBuiltin`,
`errOptimizationNotApplicable`, builtin.go lines 27-30); every other
failure is a hard error carrying its message.  `outOfGas` is an artifact
of the embedding's explicit recursion fuel and is unreachable from the
canonical entry point (the depth ceiling fails first). -/
inductive GErr where
  | noSuchBuiltin
  | optimizationNotApplicable
  | hard (msg : String)
  | outOfGas
deriving DecidableEq, Repr

/-- The per-function mutable codegen state (`funk` / `currFunk`): the
temporary-variable counter, the monotonic scratch and empty-I/O-buffer
flags, the prologue accumulator, and the originating function's name and
coroutine-ness. -/
structure Funk where
  usesEmptyIOBuffer : Bool := false
  usesScratch : Bool := false
  tempW : Nat := 0
  bPrologue : List String := []
  funcName : String := "f"
  isCoroutine : Bool := false
deriving DecidableEq, Repr

/-- The generator state threaded through the writers: the append-only
output buffer and the per-function context. -/
structure GState where
  buf : List String := []
  funk : Funk := {}
deriving DecidableEq, Repr

/-- `b.writes` / `b.printf`: append text to the output buffer. -/
def GState.writes (st : GState) (s : String) : GState :=
  { st with buf := st.buf ++ [s] }

/-- The type of the recursive expression-writer callback threaded through
the non-recursive builtin writers: state, node, side-effects-only flag,
depth. -/
abbrev WExpr := GState → MExpr → Bool → Nat → Except GErr GState

/-- `recvName` (builtin.go lines 154-164): the receiver's textual name; a
bare identifier gets the local-variable prefix, a field selection on the
distinguished `args` identifier gets the argument prefix, and every other
receiver shape is a hard error. -/
def recvName (recv : MExpr) : Except GErr String :=
  match recv with
  | .ident nm => .ok (vPrefix ++ nm)
  | .dot (.ident lhsNm) nm =>
    if lhsNm = "args" then .ok (aPrefix ++ nm)
    else .error (.hard "recvName: cannot cgen this expression")
  | _ => .error (.hard "recvName: cannot cgen this expression")

/-- The separator-prefixed argument loop of `writeArgs` (builtin.go lines
1029-1040), as explicit recursion: each argument after the first is
preceded by the separator, and the loop closes the parenthesis. -/
def writeArgsLoop (wE : WExpr) (sep : String) : GState → Nat → List (String × MExpr) → Nat →
    Except GErr GState
  | st, _, [], _ => .ok (st.writes ")")
  | st, i, o :: rest, depth => do
    let st := if 0 < i then st.writes sep else st
    let st ← wE st o.2 false depth
    writeArgsLoop wE sep st (i + 1) rest depth

/-- `writeArgs` (builtin.go lines 1025-1043). -/
def writeArgs (wE : WExpr) (st : GState) (args : List (String × MExpr)) (depth : Nat) :
    Except GErr GState :=
  let st := if 4 ≤ args.length then st.writes "\n" else st
  writeArgsLoop wE (if 4 ≤ args.length then ",\n" else ", ") st 0 args depth

/-- `writeBuiltinIO` (builtin.go lines 166-177). -/
def writeBuiltinIO (st : GState) (recv : MExpr) (method : MethodID) :
    Except GErr GState :=
  match method with
  | .length => do
    let rn ← recvName recv
    return st.writes ("((uint64_t)(" ++ io2Prefix ++ rn ++ " - " ++ iopPrefix ++ rn ++ "))")
  | _ => .error .noSuchBuiltin

/-- `t.ID.Str`: the source-level spelling of a method identifier (used by
the CPU-arch writers' name sniffing and by a few emissions).  Family
constructors rebuild their spelling from their descriptor parameters. -/
def MethodID.str : MethodID → String
  | .set => "set"
  | .length => "length"
  | .copyFromSlice => "copy_from_slice"
  | .suffix => "suffix"
  | .uintptrLow12Bits => "uintptr_low_12_bits"
  | .height => "height"
  | .stride => "stride"
  | .width => "width"
  | .row => "row"
  | .lowBits => "low_bits"
  | .highBits => "high_bits"
  | .max => "max"
  | .min => "min"
  | .validUTF8Length => "valid_utf_8_length"
  | .undoByte => "undo_byte"
  | .canUndoByte => "can_undo_byte"
  | .limitedCopyU32ToSlice => "limited_copy_u32_to_slice"
  | .countSince => "count_since"
  | .isClosed => "is_closed"
  | .mark => "mark"
  | .match7 => "match7"
  | .peekU64LEAt => "peek_u64le_at"
  | .position => "position"
  | .since => "since"
  | .skipU32Fast => "skip_u32_fast"
  | .historyLength => "history_length"
  | .limitedCopyU32FromHistory => "limited_copy_u32_from_history"
  | .limitedCopyU32FromHistory8ByteChunksDistance1Fast =>
    "limited_copy_u32_from_history_8_byte_chunks_distance_1_fast"
  | .limitedCopyU32FromHistory8ByteChunksFast =>
    "limited_copy_u32_from_history_8_byte_chunks_fast"
  | .limitedCopyU32FromHistoryFast => "limited_copy_u32_from_history_fast"
  | .limitedCopyU32FromReader => "limited_copy_u32_from_reader"
  | .limitedCopyU32FromSlice => "limited_copy_u32_from_slice"
  | .limitedSwizzleU32InterleavedFromReader => "limited_swizzle_u32_interleaved_from_reader"
  | .swizzleInterleavedFromReader => "swizzle_interleaved_from_reader"
  | .writeSimpleTokenFast => "write_simple_token_fast"
  | .writeExtendedTokenFast => "write_extended_token_fast"
  | .cpuArchIs32Bit => "cpu_arch_is_32_bit"
  | .emptyIOReader => "empty_io_reader"
  | .emptyIOWriter => "empty_io_writer"
  | .readU8 => "read_u8"
  | .readU8AsU32 => "read_u8_as_u32"
  | .readU8AsU64 => "read_u8_as_u64"
  | .skip => "skip"
  | .skipU32 => "skip_u32"
  | .writeU8 => "write_u8"
  | .read xx yy e =>
    "read_u" ++ toString xx ++ (if e = .be then "be" else "le") ++
      (if xx = yy then "" else "_as_u" ++ toString yy)
  | .peek xx yy e =>
    (if xx = 8 then "peek_u8" else "peek_u" ++ toString xx ++ (if e = .be then "be" else "le")) ++
      (if xx = yy then "" else "_as_u" ++ toString yy)
  | .poke xx e =>
    if xx = 8 then "poke_u8" else "poke_u" ++ toString xx ++ (if e = .be then "be" else "le")
  | .writeFast xx e =>
    (if xx = 8 then "write_u8" else "write_u" ++ toString xx ++ (if e = .be then "be" else "le"))
      ++ "_fast"
  | .reset => "reset"
  | .other nm => nm

/-- The `", " + arg` emission loop ending in `")"` shared by several
writers (e.g. builtin.go lines 316-322 and 476-482). -/
def writeCommaArgs (wE : WExpr) : GState → List (String × MExpr) → Nat → Except GErr GState
  | st, [], _ => .ok (st.writes ")")
  | st, o :: rest, depth => do
    let st := st.writes ", "
    let st ← wE st o.2 false depth
    writeCommaArgs wE st rest depth

/-- `writeBuiltinIOReader` (builtin.go lines 179-301).  The per-method C
text is abbreviated to one buffer entry per emission run, but the method
set, the argument recursion and the error flow follow the source. -/
def writeBuiltinIOReader (wE : WExpr) (st : GState) (recv : MExpr) (method : MethodID)
    (args : List (String × MExpr)) (sideEffectsOnly : Bool) (depth : Nat) :
    Except GErr GState := do
  let rn ← recvName recv
  match method with
  | .validUTF8Length => do
    let st := st.writes ("((uint64_t)(wuffs_base__utf_8__longest_valid_prefix(" ++
      iopPrefix ++ rn ++ ", (size_t)(wuffs_base__u64__min((uint64_t)(" ++
      io2Prefix ++ rn ++ " - " ++ iopPrefix ++ rn ++ "), ")
    match args.head? with
    | none => .error (.hard "internal error: missing argument")
    | some a0 => do
      let st ← wE st a0.2 false depth
      return st.writes "))))))"
  | .undoByte =>
    let st := if ¬ sideEffectsOnly then st.writes "(" else st
    let st := st.writes (iopPrefix ++ rn ++ "--")
    return (if ¬ sideEffectsOnly then st.writes ", wuffs_base__make_empty_struct())" else st)
  | .canUndoByte =>
    return st.writes ("(" ++ iopPrefix ++ rn ++ " > " ++ io1Prefix ++ rn ++ ")")
  | .limitedCopyU32ToSlice => do
    let st := st.writes ("wuffs_base__io_reader__limited_copy_u32_to_slice(\n&" ++
      iopPrefix ++ rn ++ ", " ++ io2Prefix ++ rn ++ ",")
    writeArgs wE st args depth
  | .countSince =>
    match args.head? with
    | none => .error (.hard "internal error: missing argument")
    | some a0 => do
      let st := st.writes "wuffs_base__io__count_since("
      let st ← wE st a0.2 false depth
      return st.writes (", ((uint64_t)(" ++ iopPrefix ++ rn ++ " - " ++ io0Prefix ++ rn ++ ")))")
  | .isClosed =>
    return st.writes ("(" ++ rn ++ " && " ++ rn ++ "->meta.closed)")
  | .mark =>
    return st.writes ("((uint64_t)(" ++ iopPrefix ++ rn ++ " - " ++ io0Prefix ++ rn ++ "))")
  | .match7 =>
    match args.head? with
    | none => .error (.hard "internal error: missing argument")
    | some a0 => do
      let st := st.writes ("wuffs_base__io_reader__match7(" ++ iopPrefix ++ rn ++ ", " ++
        io2Prefix ++ rn ++ ", " ++ rn ++ ",")
      let st ← wE st a0.2 false depth
      return st.writes ")"
  | .peekU64LEAt =>
    match args.head? with
    | none => .error (.hard "internal error: missing argument")
    | some a0 => do
      let st := st.writes ("wuffs_base__peek_u64le__no_bounds_check(" ++ iopPrefix ++ rn ++ " + ")
      let st ← wE st a0.2 false depth
      return st.writes ")"
  | .position =>
    return st.writes ("wuffs_base__u64__sat_add(" ++ rn ++ "->meta.pos, ((uint64_t)(" ++
      iopPrefix ++ rn ++ " - " ++ io0Prefix ++ rn ++ ")))")
  | .since =>
    match args.head? with
    | none => .error (.hard "internal error: missing argument")
    | some a0 => do
      let st := st.writes "wuffs_base__io__since("
      let st ← wE st a0.2 false depth
      return st.writes (", ((uint64_t)(" ++ iopPrefix ++ rn ++ " - " ++ io0Prefix ++ rn ++
        ")), " ++ io0Prefix ++ rn ++ ")")
  | .skipU32Fast =>
    match args.head? with
    | none => .error (.hard "internal error: missing argument")
    | some a0 => do
      let st := if ¬ sideEffectsOnly then st.writes "(" else st
      let st := st.writes (iopPrefix ++ rn ++ " += ")
      let st ← wE st a0.2 false depth
      return (if ¬ sideEffectsOnly then st.writes ", wuffs_base__make_empty_struct())" else st)
  | .peek xx yy e =>
    if (xx, yy, e) ∈ peekMethodsList then
      let st := if yy ≠ xx then st.writes ("((uint" ++ toString yy ++ "_t)(") else st
      let st := st.writes ("wuffs_base__" ++ (MethodID.peek xx xx e).str ++
        "__no_bounds_check(" ++ iopPrefix ++ rn ++ ")")
      return (if yy ≠ xx then st.writes "))" else st)
    else
      writeBuiltinIO st recv method
  | _ => writeBuiltinIO st recv method

/-- `writeBuiltinIOWriter` (builtin.go lines 303-400), abbreviated the
same way. -/
def writeBuiltinIOWriter (wE : WExpr) (st : GState) (recv : MExpr) (method : MethodID)
    (args : List (String × MExpr)) (sideEffectsOnly : Bool) (depth : Nat) :
    Except GErr GState := do
  let rn ← recvName recv
  match method with
  | .limitedCopyU32FromHistory
  | .limitedCopyU32FromHistory8ByteChunksDistance1Fast
  | .limitedCopyU32FromHistory8ByteChunksFast
  | .limitedCopyU32FromHistoryFast => do
    let st := st.writes ("wuffs_base__io_writer__" ++ method.str ++ "(\n&" ++
      iopPrefix ++ rn ++ ", " ++ io0Prefix ++ rn ++ ", " ++ io2Prefix ++ rn)
    writeCommaArgs wE st args depth
  | .limitedCopyU32FromReader =>
    match args.get? 0, args.get? 1 with
    | some a0, some a1 => do
      let readerName ← recvName a1.2
      let st := st.writes ("wuffs_base__io_writer__limited_copy_u32_from_reader(\n&" ++
        iopPrefix ++ rn ++ ", " ++ io2Prefix ++ rn ++ ",")
      let st ← wE st a0.2 false depth
      return st.writes (", &" ++ iopPrefix ++ readerName ++ ", " ++ io2Prefix ++ readerName ++ ")")
    | _, _ => .error (.hard "internal error: missing argument")
  | .copyFromSlice => do
    let st := st.writes ("wuffs_base__io_writer__copy_from_slice(&" ++
      iopPrefix ++ rn ++ ", " ++ io2Prefix ++ rn ++ ",")
    writeArgs wE st args depth
  | .limitedCopyU32FromSlice => do
    let st := st.writes ("wuffs_base__io_writer__limited_copy_u32_from_slice(&" ++
      iopPrefix ++ rn ++ ", " ++ io2Prefix ++ rn ++ ",")
    writeArgs wE st args depth
  | .countSince =>
    match args.head? with
    | none => .error (.hard "internal error: missing argument")
    | some a0 => do
      let st := st.writes "wuffs_base__io__count_since("
      let st ← wE st a0.2 false depth
      return st.writes (", ((uint64_t)(" ++ iopPrefix ++ rn ++ " - " ++ io0Prefix ++ rn ++ ")))")
  | .historyLength | .mark =>
    return st.writes ("((uint64_t)(" ++ iopPrefix ++ rn ++ " - " ++ io0Prefix ++ rn ++ "))")
  | .position =>
    return st.writes ("wuffs_base__u64__sat_add(" ++ rn ++ "->meta.pos, ((uint64_t)(" ++
      iopPrefix ++ rn ++ " - " ++ io0Prefix ++ rn ++ ")))")
  | .since =>
    match args.head? with
    | none => .error (.hard "internal error: missing argument")
    | some a0 => do
      let st := st.writes "wuffs_base__io__since("
      let st ← wE st a0.2 false depth
      return st.writes (", ((uint64_t)(" ++ iopPrefix ++ rn ++ " - " ++ io0Prefix ++ rn ++
        ")), " ++ io0Prefix ++ rn ++ ")")
  | .writeFast xx e =>
    if (xx, e) ∈ writeFastMethodsList then
      match args.head? with
      | none => .error (.hard "internal error: missing argument")
      | some a0 => do
        let st := st.writes ("(wuffs_base__" ++ (MethodID.poke xx e).str ++
          "__no_bounds_check(" ++ iopPrefix ++ rn ++ ", ")
        let st ← wE st a0.2 false depth
        let st := st.writes ("), " ++ iopPrefix ++ rn ++ " += " ++ toString (xx / 8))
        let st := if ¬ sideEffectsOnly then st.writes ", wuffs_base__make_empty_struct()" else st
        return st.writes ")"
    else
      writeBuiltinIO st recv method
  | _ => writeBuiltinIO st recv method

/-- `writeBuiltinTokenWriter` (builtin.go lines 402-447): the packed
64-bit token emission.  The value-major term (simple tokens) and the
continued term are skipped when their argument constant-folds to zero;
`simpleTokenFastValue` / `extendedTokenFastValue` above are the arithmetic
denotations of the emitted expression. -/
def writeBuiltinTokenWriter (wE : WExpr) (st : GState) (recv : MExpr) (method : MethodID)
    (args : List (String × MExpr)) (depth : Nat) : Except GErr GState :=
  match method with
  | .writeSimpleTokenFast | .writeExtendedTokenFast => do
    let rn ← recvName recv
    let st := st.writes ("*iop_" ++ rn ++ "++ = wuffs_base__make_token(\n")
    let st ←
      if method = .writeSimpleTokenFast then
        match args.get? 0, args.get? 1 with
        | some a0, some a1 => do
          let st := st.writes "(((uint64_t)("
          let st ←
            match a0.2.constValue with
            | some cv =>
              if cv = 0 then pure st
              else do
                let st ← wE st a0.2 false depth
                pure (st.writes ")) << WUFFS_BASE__TOKEN__VALUE_MAJOR__SHIFT) |\n(((uint64_t)(")
            | none => do
              let st ← wE st a0.2 false depth
              pure (st.writes ")) << WUFFS_BASE__TOKEN__VALUE_MAJOR__SHIFT) |\n(((uint64_t)(")
          let st ← wE st a1.2 false depth
          pure (st.writes ")) << WUFFS_BASE__TOKEN__VALUE_MINOR__SHIFT) |\n(((uint64_t)(")
        | _, _ => .error (.hard "internal error: missing argument")
      else
        match args.get? 0 with
        | some a0 => do
          let st := st.writes "(~"
          let st ← wE st a0.2 false depth
          pure (st.writes " << WUFFS_BASE__TOKEN__VALUE_EXTENSION__SHIFT) |\n(((uint64_t)(")
        | none => .error (.hard "internal error: missing argument")
    match args.get? (args.length - 2), args.get? (args.length - 1) with
    | some aCont, some aLen => do
      let st ←
        match aCont.2.constValue with
        | some cv =>
          if cv = 0 then pure st
          else do
            let st ← wE st aCont.2 false depth
            pure (st.writes ")) << WUFFS_BASE__TOKEN__CONTINUED__SHIFT) |\n(((uint64_t)(")
        | none => do
          let st ← wE st aCont.2 false depth
          pure (st.writes ")) << WUFFS_BASE__TOKEN__CONTINUED__SHIFT) |\n(((uint64_t)(")
      let st ← wE st aLen.2 false depth
      return st.writes ")) << WUFFS_BASE__TOKEN__LENGTH__SHIFT))"
    | _, _ => .error (.hard "internal error: missing argument")
  | _ => writeBuiltinIO st recv method

/-- The vector-constructor argument loop of the Neon and X86 `make_`
lowerings (builtin.go lines 537-550 and 637-655), emission text
abbreviated to the argument recursion. -/
def writeVecArgs (wE : WExpr) : GState → Nat → List (String × MExpr) → Nat →
    Except GErr GState
  | st, _, [], _ => .ok (st.writes ")")
  | st, i, o :: rest, depth => do
    let st := if 0 < i then st.writes ", " else st
    let st ← wE st o.2 false depth
    writeVecArgs wE st (i + 1) rest depth

/-- `writeBuiltinCPUArchARMCRC32` (builtin.go lines 462-484). -/
def writeBuiltinCPUArchARMCRC32 (wE : WExpr) (st : GState) (recv : MExpr) (method : MethodID)
    (args : List (String × MExpr)) (depth : Nat) : Except GErr GState :=
  let methodStr := method.str
  if methodStr = "make_u32" then
    match args.head? with
    | none => .error (.hard "internal error: missing argument")
    | some a0 => wE st a0.2 false depth
  else if methodStr = "value" then
    wE st recv false depth
  else do
    let st := st.writes ("__" ++ methodStr ++ "(")
    let st ← wE st recv false depth
    writeCommaArgs wE st args depth

/-- The ARM Neon `make_` spellings the source recognizes (builtin.go lines
490-534); any other `make_` method is a hard internal error. -/
def armNeonMakeList : List String :=
  ["make_u8x8_multiple", "make_u16x4_multiple", "make_u32x2_multiple", "make_u64x1_multiple",
   "make_u8x16_multiple", "make_u16x8_multiple", "make_u32x4_multiple", "make_u64x2_multiple",
   "make_u8x8_repeat", "make_u16x4_repeat", "make_u32x2_repeat", "make_u64x1_repeat",
   "make_u8x16_repeat", "make_u16x8_repeat", "make_u32x4_repeat", "make_u64x2_repeat",
   "make_u8x8_slice64", "make_u8x16_slice128"]

/-- `writeBuiltinCPUArchARMNeon` (builtin.go lines 486-602).  The
intrinsic-name rewriting is abbreviated to emitting the method spelling;
the `make_` recognition and the ok/hard-error flow follow the source (an
unrecognized `make_` method is a hard error at line 533; everything else
emits and succeeds, modulo errors propagated from sub-expressions). -/
def writeBuiltinCPUArchARMNeon (wE : WExpr) (st : GState) (recv : MExpr) (method : MethodID)
    (args : List (String × MExpr)) (depth : Nat) : Except GErr GState :=
  let methodStr := method.str
  if "make_".isPrefixOf methodStr then
    if methodStr ∈ armNeonMakeList then
      writeVecArgs wE (st.writes ("ARM_NEON_" ++ methodStr ++ "(")) 0 args depth
    else
      .error (.hard ("internal error: unsupported cpu_arch method " ++ methodStr))
  else do
    let st := st.writes (methodStr ++ "(")
    let st ← wE st recv false depth
    writeCommaArgs wE st args depth

/-- The X86 `make_` spellings the source recognizes (builtin.go lines
608-634); any other `make_` method is a hard internal error. -/
def x86MakeList : List String :=
  ["make_m128i_multiple_u8", "make_m128i_multiple_u16", "make_m128i_multiple_u32",
   "make_m128i_multiple_u64", "make_m128i_repeat_u8", "make_m128i_repeat_u16",
   "make_m128i_repeat_u32", "make_m128i_repeat_u64", "make_m128i_single_u32",
   "make_m128i_single_u64", "make_m128i_slice128", "make_m128i_zeroes"]

/-- `writeBuiltinCPUArchX86` (builtin.go lines 604-729), abbreviated the
same way as the Neon writer (the `make_multiple` argument-order reversal
and the store/truncate/extract special cases only change the emitted
names, not the ok/hard-error flow). -/
def writeBuiltinCPUArchX86 (wE : WExpr) (st : GState) (recv : MExpr) (method : MethodID)
    (args : List (String × MExpr)) (depth : Nat) : Except GErr GState :=
  let methodStr := method.str
  if "make_".isPrefixOf methodStr then
    if methodStr ∈ x86MakeList then
      writeVecArgs wE (st.writes ("X86_" ++ methodStr ++ "(")) 0 args.reverse depth
    else
      .error (.hard ("internal error: unsupported cpu_arch method " ++ methodStr))
  else do
    let st := st.writes (methodStr ++ "(")
    let st ← wE st recv false depth
    writeCommaArgs wE st args depth

/-- `writeBuiltinCPUArch` (builtin.go lines 449-460): dispatch on the
receiver's CPU-arch family.  (The `fmt.Errorf` default at line 458 is
unreachable here because the `armNeon` constructor collapses exactly the
family `IsBuiltInCPUArchARMNeon` recognizes.) -/
def writeBuiltinCPUArch (wE : WExpr) (st : GState) (recv : MExpr) (recvTyp : MType)
    (method : MethodID) (args : List (String × MExpr)) (depth : Nat) : Except GErr GState :=
  match recvTyp.qid.nm with
  | .armCrc32Utility | .armCrc32U32 => writeBuiltinCPUArchARMCRC32 wE st recv method args depth
  | .armNeon => writeBuiltinCPUArchARMNeon wE st recv method args depth
  | .x86SSE42Utility | .x86M128I => writeBuiltinCPUArchX86 wE st recv method args depth
  | _ => .error (.hard "internal error: unsupported cpu_arch method")

/-- Modelled from the spec: `g.sizeof` (codegen driver, outside this
slice): the byte size of a numeric type. -/
def sizeofType : MType → Except GErr Nat
  | .base ⟨.base, .u8⟩ => .ok 1
  | .base ⟨.base, .u16⟩ => .ok 2
  | .base ⟨.base, .u32⟩ => .ok 4
  | .base ⟨.base, .u64⟩ => .ok 8
  | _ => .error (.hard "sizeof: invalid type")

/-- Uppercase hexadecimal rendering of the precomputed literal mask
(`mask.Text(16)` with `strings.ToUpper`, builtin.go line 773). -/
def hexUpper (n : Nat) : String :=
  String.mk ((Nat.toDigits 16 n).map Char.toUpper)

/-- `writeBuiltinNumType` (builtin.go lines 757-845): `low_bits`,
`high_bits`, `max`, `min` on numeric receivers.  The receiver's type is
passed alongside the receiver (the Go code reads it off `recv.MType()`). -/
def writeBuiltinNumType (wE : WExpr) (st : GState) (recv : MExpr) (recvTyp : MType)
    (method : MethodID) (args : List (String × MExpr)) (depth : Nat) : Except GErr GState :=
  match method with
  | .lowBits =>
    match args.head? with
    | none => .error (.hard "internal error: missing argument")
    | some a0 => do
      let st := st.writes "(("
      let st ← wE st recv false depth
      let st := st.writes ") & "
      let runtimeEmit : GState → Except GErr GState := fun st => do
        let sz ← sizeofType recvTyp
        let st := st.writes ("WUFFS_BASE__LOW_BITS_MASK__U" ++ toString (8 * sz) ++ "(")
        let st ← wE st a0.2 false depth
        return (st.writes ")").writes ")"
      match a0.2.constValue with
      | some cv =>
        if 0 ≤ cv ∧ cv ≤ 64 then
          return (st.writes ("0x" ++ hexUpper (1 <<< cv.toNat - 1))).writes ")"
        else runtimeEmit st
      | none => runtimeEmit st
  | .highBits =>
    match args.head? with
    | none => .error (.hard "internal error: missing argument")
    | some a0 => do
      let st := st.writes "(("
      let st ← wE st recv false depth
      let st := st.writes ") >> ("
      let sz ← sizeofType recvTyp
      let st := st.writes (toString (8 * sz) ++ " - (")
      let st ← wE st a0.2 false depth
      return st.writes ")))"
  | .max | .min =>
    match args.head? with
    | none => .error (.hard "internal error: missing argument")
    | some a0 => do
      let st := st.writes "wuffs_base__u"
      let sz ← sizeofType recvTyp
      let st := st.writes (toString (8 * sz) ++
        (if method = .max then "__max(" else "__min("))
      let st ← wE st recv false depth
      let st := st.writes ", "
      let st ← wE st a0.2 false depth
      return st.writes ")"
  | _ => .error .noSuchBuiltin

/-- `matchFooIndexIndexPlus8` (builtin.go lines 970-990): matches
`foo[index .. index + 8]` or `foo[.. 8]`, after constant folding of the
bound sub-expressions.  Returns `none` on no match; on a match, the
sliced expression and the optional lower bound. -/
def matchFooIndexIndexPlus8 (n : MExpr) : Option (MExpr × Option MExpr) :=
  match n with
  | .sliceOp _ foo index rhsOpt =>
    match rhsOpt with
    | none => none
    | some rhs =>
      match index with
      | none =>
        match rhs.constValue with
        | some cv => if cv = 8 then some (foo, none) else none
        | none => none
      | some idx =>
        match rhs with
        | .binPlus lhs rhs2 =>
          if lhs.eqb idx then
            match rhs2.constValue with
            | some cv => if cv = 8 then some (foo, some idx) else none
            | none => none
          else none
        | _ => none
  | _ => none

/-- The left operand's is-slice fact for a slice expression (`foo` of
`foo[i .. j]` is a slice when the annotation carries no array length),
used for the `.ptr` emission in the peephole. -/
def sliceLhsIsSlice (n : MExpr) : Bool :=
  match n with
  | .sliceOp none _ _ _ => true
  | _ => false

/-- `writeBuiltinSliceCopyFromSlice8` (builtin.go lines 927-968): the
8-byte `memcpy` peephole.  Fires only for a `copy_from_slice` call with
exactly one argument whose receiver and argument both match
`matchFooIndexIndexPlus8`; otherwise returns the dedicated
optimization-not-applicable signal. -/
def writeBuiltinSliceCopyFromSlice8 (wE : WExpr) (st : GState) (recv : MExpr)
    (method : MethodID) (args : List (String × MExpr)) (depth : Nat) : Except GErr GState :=
  if method ≠ .copyFromSlice ∨ args.length ≠ 1 then .error .optimizationNotApplicable
  else
    match args.head? with
    | none => .error .optimizationNotApplicable
    | some a0 =>
      match matchFooIndexIndexPlus8 recv, matchFooIndexIndexPlus8 a0.2 with
      | some (foo, fIndex), some (bar, bIndex) => do
        let st := st.writes "memcpy(("
        let st ← wE st foo false depth
        let st := if sliceLhsIsSlice recv then st.writes ".ptr" else st
        let st ←
          match fIndex with
          | some idx => do
            let st := st.writes ")+("
            wE st idx false depth
          | none => pure st
        let st := st.writes "), ("
        let st ← wE st bar false depth
        let st := if sliceLhsIsSlice a0.2 then st.writes ".ptr" else st
        let st ←
          match bIndex with
          | some idx => do
            let st := st.writes ")+("
            wE st idx false depth
          | none => pure st
        return st.writes "), 8)"
      | _, _ => .error .optimizationNotApplicable

/-- `writeBuiltinSlice` (builtin.go lines 847-925). -/
def writeBuiltinSlice (wE : WExpr) (st : GState) (recv : MExpr) (method : MethodID)
    (args : List (String × MExpr)) (sideEffectsOnly : Bool) (depth : Nat) :
    Except GErr GState :=
  match method with
  | .copyFromSlice =>
    match writeBuiltinSliceCopyFromSlice8 wE st recv method args depth with
    | .error .optimizationNotApplicable => do
      let st := st.writes "wuffs_base__slice_u8__copy_from_slice("
      let st ← wE st recv false depth
      let st := st.writes ", "
      writeArgs wE st args depth
    | r => r
  | .length => do
    let st := st.writes "((uint64_t)("
    let st ← wE st recv false depth
    return st.writes ".len))"
  | .uintptrLow12Bits => do
    let st := st.writes "((uint32_t)(0xFFF & (uintptr_t)("
    let st ← wE st recv false depth
    return st.writes ".ptr)))"
  | .suffix => do
    let st := st.writes "wuffs_base__slice_u8__suffix("
    let st ← wE st recv false depth
    let st := st.writes ", "
    writeArgs wE st args depth
  | .peek xx yy e =>
    if (xx, yy, e) ∈ peekMethodsList then do
      let st := st.writes ("wuffs_base__" ++ (MethodID.peek xx xx e).str ++ "__no_bounds_check(")
      let st ← wE st recv false depth
      return st.writes ".ptr)"
    else
      .error .noSuchBuiltin
  | .poke xx e =>
    if xx ∈ pokeWidthsList then
      match args.head? with
      | none => .error (.hard "internal error: missing argument")
      | some a0 => do
        let st := if ¬ sideEffectsOnly then st.writes "(" else st
        let st := st.writes ("wuffs_base__" ++ (MethodID.poke xx e).str ++ "__no_bounds_check(")
        let st ← wE st recv false depth
        let st := st.writes ".ptr, "
        let st ← wE st a0.2 false depth
        let st := st.writes ")"
        return (if ¬ sideEffectsOnly then st.writes ", wuffs_base__make_empty_struct())" else st)
    else
      .error .noSuchBuiltin
  | _ => .error .noSuchBuiltin

/-- `writeBuiltinTable` (builtin.go lines 992-1023). -/
def writeBuiltinTable (wE : WExpr) (st : GState) (recv : MExpr) (method : MethodID)
    (args : List (String × MExpr)) (depth : Nat) : Except GErr GState :=
  match method with
  | .height | .stride | .width => do
    let st := st.writes "((uint64_t)("
    let st ← wE st recv false depth
    return st.writes ("." ++ method.str ++ "))")
  | .row => do
    let st := st.writes "wuffs_base__table_u8__row("
    let st ← wE st recv false depth
    let st := st.writes ", "
    writeArgs wE st args depth
  | _ => .error .noSuchBuiltin

/-- The `",\n" + arg` loop over all but the last argument of the pixel
swizzler lowering (builtin.go lines 120-125). -/
def writeSwizzleArgs (wE : WExpr) : GState → List (String × MExpr) → Nat →
    Except GErr GState
  | st, [], _ => .ok st
  | st, o :: rest, depth => do
    let st := st.writes ",\n"
    let st ← wE st o.2 false depth
    writeSwizzleArgs wE st rest depth

/-- The argument loop of the pointer-receiver `set` lowering (builtin.go
lines 65-79): each argument is preceded by `",\n"`; the argument at
position `u64ToFlicksIndex` (always index 1, or -1 for no wrap) must be
named `duration` — a mismatch is a hard error — and is wrapped in a
`wuffs_base__flicks` cast. -/
def writeSetArgs (wE : WExpr) : GState → Int → Nat → List (String × MExpr) → Nat →
    Except GErr GState
  | st, _, _, [], _ => .ok (st.writes ")")
  | st, u64ToFlicksIndex, i, (nm, v) :: rest, depth => do
    let st := st.writes ",\n"
    if (i : Int) = u64ToFlicksIndex ∧ nm ≠ "duration" then
      .error (.hard "cgen: internal error: inconsistent frame_config.set argument")
    else do
      let st := if (i : Int) = u64ToFlicksIndex then st.writes "((wuffs_base__flicks)(" else st
      let st ← wE st v false depth
      let st := if (i : Int) = u64ToFlicksIndex then st.writes "))" else st
      writeSetArgs wE st u64ToFlicksIndex (i + 1) rest depth

/-- `writeBuiltinCall` (builtin.go lines 32-152): the central builtin
dispatcher.  Either emits a complete lowering and succeeds, or returns the
dedicated not-a-builtin signal, or fails with a hard error. -/
def writeBuiltinCall (wE : WExpr) (st : GState) (n : MExpr) (sideEffectsOnly : Bool)
    (depth : Nat) : Except GErr GState :=
  match n with
  | .call recvTyp recv method _coroutine args =>
    match recvTyp.decorator with
    | some .nptr | some .ptr =>
      if method ≠ .set then .error .noSuchBuiltin
      else do
        let rn ← recvName recv
        match recvTyp.inner.qid with
        | ⟨.base, .imageConfig⟩ => do
          let st := st.writes ("wuffs_base__image_config__set(\n" ++ rn)
          writeSetArgs wE st (-1) 0 args depth
        | ⟨.base, .frameConfig⟩ => do
          let st := st.writes ("wuffs_base__frame_config__set(\n" ++ rn)
          writeSetArgs wE st 1 0 args depth
        | _ => .error .noSuchBuiltin
    | some .slice => writeBuiltinSlice wE st recv method args sideEffectsOnly depth
    | some .table => writeBuiltinTable wE st recv method args depth
    | some .array => .error .noSuchBuiltin
    | none =>
      let qid := recvTyp.qid
      if qid.pkg ≠ .base then .error .noSuchBuiltin
      else if qid.nm.isNumType then writeBuiltinNumType wE st recv recvTyp method args depth
      else if qid.nm.isBuiltInCPUArch then
        writeBuiltinCPUArch wE st recv recvTyp method args depth
      else
        match qid.nm with
        | .ioReader => writeBuiltinIOReader wE st recv method args sideEffectsOnly depth
        | .ioWriter => writeBuiltinIOWriter wE st recv method args sideEffectsOnly depth
        | .pixelSwizzler =>
          match method with
          | .limitedSwizzleU32InterleavedFromReader | .swizzleInterleavedFromReader => do
            let st := st.writes ("wuffs_base__pixel_swizzler__" ++
              (if method = .limitedSwizzleU32InterleavedFromReader then
                "limited_swizzle_u32_interleaved_from_reader" else
                "swizzle_interleaved_from_reader") ++ "(\n&")
            let st ← wE st recv false depth
            let st ← writeSwizzleArgs wE st (args.take (args.length - 1)) depth
            match args.getLast? with
            | none => .error (.hard "internal error: missing argument")
            | some aLast => do
              let readerArgName ← recvName aLast.2
              return st.writes (",\n&" ++ iopPrefix ++ readerArgName ++ ",\n" ++
                io2Prefix ++ readerArgName ++ ")")
          | _ => .error .noSuchBuiltin
        | .tokenWriter => writeBuiltinTokenWriter wE st recv method args depth
        | .utility =>
          match method with
          | .cpuArchIs32Bit => .ok (st.writes "(sizeof(void*) == 4)")
          | .emptyIOReader | .emptyIOWriter =>
            let st :=
              if st.funk.usesEmptyIOBuffer then st
              else
                { st with funk := { st.funk with
                    usesEmptyIOBuffer := true,
                    bPrologue := st.funk.bPrologue ++
                      ["wuffs_base__io_buffer empty_io_buffer = " ++
                        "wuffs_base__empty_io_buffer();\n\n"] } }
            .ok (st.writes "&empty_io_buffer")
          | _ => .error .noSuchBuiltin
        | _ => .error .noSuchBuiltin
  | _ => .error .noSuchBuiltin

/-- Modelled from the spec: `writeCoroSuspPoint` (statement-level codegen,
outside this slice) emits the numbered coroutine suspension-point label
that a future re-invocation of the generated function re-enters at. -/
def writeCoroSuspPoint (st : GState) : Except GErr GState :=
  .ok (st.writes "WUFFS_BASE__COROUTINE_SUSPENSION_POINT;\n")

/-- The function-scoped scratch slot's C spelling (builtin.go lines
1103-1104): state that must survive a suspension lives in
`self->private_data.s_<func>[0].scratch`, never in an ordinary local. -/
def scratchNameOf (funk : Funk) : String :=
  "self->private_data." ++ sPrefix ++ funk.funcName ++ "[0].scratch"

/-- The emitted availability check and short-read suspension (builtin.go
lines 1074-1077 and 1093-1096). -/
def shortReadCheck (rn : String) : String :=
  "if (WUFFS_BASE__UNLIKELY(" ++ iopPrefix ++ rn ++ " == " ++ io2Prefix ++ rn ++
    ")) \x7b\nstatus = wuffs_base__make_status(wuffs_base__suspension__short_read);\n" ++
    "goto suspend;\n\x7d\n"

/-- The result C type of the single-byte read variants (`writeCTypeName`
on the call's type, abbreviated to the primitive's spelling). -/
def readU8CTypeName : MethodID → String
  | .readU8AsU32 => "uint32_t"
  | .readU8AsU64 => "uint64_t"
  | _ => "uint8_t"

/-- `writeReadUxxAsUyy` (builtin.go lines 1166-1252): the generator of the
multi-byte read suspend point.  Validates `xx` (a multiple of 8 in
[16, 64]; the endianness is valid by construction of `Endianness`),
allocates a temporary, marks the scratch slot used, and emits the fast
path plus the byte-at-a-time loop whose denotation is `readUxxAsUyyRun` /
`readLoopRun` above. -/
def writeReadUxxAsUyy (st : GState) (recv : MExpr) (preName : String) (xx yy : Nat)
    (e : Endianness) : Except GErr GState :=
  if xx % 8 ≠ 0 ∨ xx < 16 ∨ 64 < xx then
    .error (.hard "internal error: bad writeReadUXX size")
  else if maxTemp < st.funk.tempW then
    .error (.hard "too many temporary variables required")
  else do
    let temp := st.funk.tempW
    let st := { st with funk := { st.funk with tempW := temp + 1 } }
    let st := st.writes ("uint" ++ toString yy ++ "_t " ++ tPrefix ++ toString temp ++ ";\n")
    let rn ← recvName recv
    let st := { st with funk := { st.funk with usesScratch := true } }
    let scratchName := scratchNameOf st.funk
    let ec := if e = .be then "b" else "l"
    let nb := toString (xx / 8)
    let st := st.writes ("if (WUFFS_BASE__LIKELY(" ++ io2Prefix ++ rn ++ " - " ++
      iopPrefix ++ rn ++ " >= " ++ nb ++ ")) \x7b\n")
    let st := st.writes (tPrefix ++ toString temp ++ " = " ++
      (if xx ≠ yy then "((uint" ++ toString yy ++ "_t)(" else "") ++
      "wuffs_base__peek_u" ++ toString xx ++ ec ++ "e__no_bounds_check(" ++
      iopPrefix ++ rn ++ ")" ++ (if xx ≠ yy then "))" else "") ++ ";\n" ++
      iopPrefix ++ rn ++ " += " ++ nb ++ ";\n\x7d else \x7b\n")
    let st := st.writes (scratchName ++ " = 0;\n")
    let st ← writeCoroSuspPoint st
    let st := st.writes "while (true) \x7b\n"
    let st := st.writes (shortReadCheck preName)
    let st := st.writes ("uint64_t* scratch = &" ++ scratchName ++ ";\n" ++
      "uint32_t num_bits_" ++ toString temp ++ " = ((uint32_t)(*scratch" ++
      (if e = .be then
        " & 0xFF));\n*scratch >>= 8;\n*scratch <<= 8;\n*scratch |= ((uint64_t)(*" ++
          iopPrefix ++ preName ++ "++)) << (56 - num_bits_" ++ toString temp ++ ");\n"
       else
        " >> 56));\n*scratch <<= 8;\n*scratch >>= 8;\n*scratch |= ((uint64_t)(*" ++
          iopPrefix ++ preName ++ "++)) << num_bits_" ++ toString temp ++ ";\n"))
    let st := st.writes ("if (num_bits_" ++ toString temp ++ " == " ++ toString (xx - 8) ++
      ") \x7b\n" ++ tPrefix ++ toString temp ++ " = ((uint" ++ toString yy ++ "_t)(" ++
      (if e = .be then "*scratch >> " ++ toString (64 - xx) else "*scratch") ++
      "));\nbreak;\n\x7d\n")
    let st := st.writes ("num_bits_" ++ toString temp ++ " += 8;\n*scratch |= ((uint64_t)(num_bits_" ++
      toString temp ++ "))" ++ (if e = .be then "" else " << 56") ++ ";\n")
    return st.writes "\x7d\n\x7d\n"

/-- `writeBuiltinQuestionCall` (builtin.go lines 1045-1164): the suspend
point generator for possibly-blocking I/O calls (a call expression with a
coroutine effect on an I/O receiver).  A skip (or single-byte read) whose
byte count constant-folds to 1 is a single availability check with no
loop and no scratch-slot use; every other skip stores the remaining count
in the scratch slot (`skipStep` / `skipRun` above is its denotation). -/
def writeBuiltinQuestionCall (wE : WExpr) (st : GState) (n : MExpr) (depth : Nat) :
    Except GErr GState :=
  match n with
  | .call recvTyp recv method coroutine args =>
    if ¬ coroutine then .error .noSuchBuiltin
    else if ¬ recvTyp.isIOTokenType then .error .noSuchBuiltin
    else do
      let rn ← recvName recv
      match recvTyp.qid.nm with
      | .ioReader =>
        match method with
        | .readU8 | .readU8AsU32 | .readU8AsU64 => do
          let st ← writeCoroSuspPoint st
          if maxTemp < st.funk.tempW then
            .error (.hard "too many temporary variables required")
          else do
            let temp := st.funk.tempW
            let st := { st with funk := { st.funk with tempW := temp + 1 } }
            let st := st.writes (shortReadCheck rn)
            return st.writes (readU8CTypeName method ++ " " ++ tPrefix ++ toString temp ++
              " = *" ++ iopPrefix ++ rn ++ "++;\n")
        | .skip | .skipU32 =>
          match args.head? with
          | none => .error (.hard "internal error: missing argument")
          | some a0 =>
            if a0.2.constValue = some 1 then do
              let st ← writeCoroSuspPoint st
              let st := st.writes (shortReadCheck rn)
              return st.writes (iopPrefix ++ rn ++ "++;\n")
            else do
              let st := { st with funk := { st.funk with usesScratch := true } }
              let scratchName := scratchNameOf st.funk
              let st := st.writes (scratchName ++ " = ")
              let st ← wE st a0.2 false depth
              let st := st.writes ";\n"
              let st ← writeCoroSuspPoint st
              let st := st.writes ("if (" ++ scratchName ++ " > ((uint64_t)(" ++
                io2Prefix ++ rn ++ " - " ++ iopPrefix ++ rn ++ "))) \x7b\n" ++
                scratchName ++ " -= ((uint64_t)(" ++ io2Prefix ++ rn ++ " - " ++
                iopPrefix ++ rn ++ "));\n" ++ iopPrefix ++ rn ++ " = " ++ io2Prefix ++ rn ++
                ";\nstatus = wuffs_base__make_status(wuffs_base__suspension__short_read);\n" ++
                "goto suspend;\n\x7d\n")
              return st.writes (iopPrefix ++ rn ++ " += " ++ scratchName ++ ";\n")
        | .read xx yy e =>
          if (xx, yy, e) ∈ readMethodsList then do
            let st ← writeCoroSuspPoint st
            writeReadUxxAsUyy st recv rn xx yy e
          else .error .noSuchBuiltin
        | _ => .error .noSuchBuiltin
      | .ioWriter =>
        match method with
        | .writeU8 =>
          match args.head? with
          | none => .error (.hard "internal error: missing argument")
          | some a0 => do
            let st := { st with funk := { st.funk with usesScratch := true } }
            let scratchName := scratchNameOf st.funk
            let st := st.writes (scratchName ++ " = ")
            let st ← wE st a0.2 false depth
            let st := st.writes ";\n"
            let st ← writeCoroSuspPoint st
            return st.writes ("if (" ++ iopPrefix ++ rn ++ " == " ++ io2Prefix ++ rn ++
              ") \x7b\nstatus = wuffs_base__make_status(wuffs_base__suspension__short_write);\n" ++
              "goto suspend;\n\x7d\n*" ++ iopPrefix ++ rn ++ "++ = ((uint8_t)(" ++
              scratchName ++ "));\n")
        | _ => .error .noSuchBuiltin
      | _ => .error .noSuchBuiltin
  | _ => .error .noSuchBuiltin

/-- The constant branch of the expression writer (expr.go lines
1381-1401): a folded constant prints as the destination type's literal. -/
def writeExprConst (st : GState) (t : LitType) (cv : Int) : Except GErr GState :=
  match t with
  | .num => .ok (st.writes (toString cv ++ (if (2 ^ 63 - 1 : Int) < cv then "u" else "")))
  | .nullptr => .ok (st.writes "NULL")
  | .status => .ok (st.writes "wuffs_base__make_status(NULL)")
  | .boolT =>
    if cv = 0 then .ok (st.writes "false")
    else if cv = 1 then .ok (st.writes "true")
    else .error (.hard "bool constant is neither 0 nor 1")
  | .otherT => .error (.hard "cannot generate C expression for this constant type")

/-- `writeExprUnaryOp` (expr.go lines 1625-1634), for the unary operator
in the model (`cOpNames` maps it to `" - "`). -/
def writeExprUnaryOp (wE : WExpr) (st : GState) (n : MExpr) (depth : Nat) :
    Except GErr GState :=
  match n with
  | .unaryNeg rhs => wE (st.writes " - ") rhs false depth
  | _ => .error (.hard "unrecognized operator")

/-- `writeExprBinaryOp` (expr.go lines 1636-1710), for the binary operator
in the model (plain `+`; the saturating/modular/shift/cast special cases
apply to operators the model does not carry). -/
def writeExprBinaryOp (wE : WExpr) (st : GState) (n : MExpr) (depth : Nat) :
    Except GErr GState :=
  match n with
  | .binPlus lhs rhs => do
    let st := st.writes "("
    let st ← wE st lhs false depth
    let st := st.writes " + "
    let st ← wE st rhs false depth
    return st.writes ")"
  | _ => .error (.hard "unrecognized operator")

/-- The operand loop of the associative-operator writer (expr.go lines
1760-1768), as explicit recursion. -/
def writeAssocArgs (wE : WExpr) (opName : String) : GState → Nat → List MExpr → Nat →
    Except GErr GState
  | st, _, [], _ => .ok (st.writes ")")
  | st, i, o :: rest, depth => do
    let st := if 0 < i then st.writes opName else st
    let st ← wE st o false depth
    writeAssocArgs wE opName st (i + 1) rest depth

/-- `writeExprAssociativeOp` (expr.go lines 1750-1771): operands joined by
the operator symbol in one parenthesis group, with a line break once there
are more than 3 operands. -/
def writeExprAssociativeOp (wE : WExpr) (st : GState) (n : MExpr) (depth : Nat) :
    Except GErr GState :=
  match n with
  | .assoc as =>
    writeAssocArgs wE (if 3 < as.length then " +\n" else " + ") (st.writes "(") 0 as depth
  | _ => .error (.hard "unrecognized operator")

/-- `TypeExpr` name spelling, for the package-qualified emissions. -/
def TypName.str : TypName → String
  | .imageConfig => "image_config"
  | .frameConfig => "frame_config"
  | .u8 => "u8"
  | .u16 => "u16"
  | .u32 => "u32"
  | .u64 => "u64"
  | .armCrc32Utility => "arm_crc32_utility"
  | .armCrc32U32 => "arm_crc32_u32"
  | .armNeon => "arm_neon_vec"
  | .x86SSE42Utility => "x86_sse42_utility"
  | .x86M128I => "x86_m128i"
  | .ioReader => "io_reader"
  | .ioWriter => "io_writer"
  | .tokenWriter => "token_writer"
  | .pixelSwizzler => "pixel_swizzler"
  | .utility => "utility"
  | .userDefined nm => nm

/-- `packagePrefix` (expr.go lines 1884-1901): package 0 is the package
being generated (its prefix is a driver field, modelled as a fixed
string); any other package name maps to `wuffs_<pkg>__`. -/
def packagePrefix (qid : MQID) : String :=
  match qid.pkg with
  | .current => "wuffs_pkg__"
  | .base => "wuffs_base__"
  | .user nm => "wuffs_" ++ nm ++ "__"

/-- `writeExprUserDefinedCall` (expr.go lines 1773-1796): the fallback
lowering for a call that is not a builtin.  Strips one pointer decorator
off the receiver type (hard error if a non-pointer decorator remains). -/
def writeExprUserDefinedCall (wE : WExpr) (st : GState) (recvTyp : MType) (recv : MExpr)
    (method : MethodID) (args : List (String × MExpr)) (depth : Nat) : Except GErr GState :=
  let stripped :=
    match recvTyp.decorator with
    | some .nptr | some .ptr => (recvTyp.inner, "")
    | _ => (recvTyp, "&")
  if stripped.1.decorator ≠ none then
    .error (.hard "cannot generate user-defined method call for this receiver type")
  else do
    let qid := stripped.1.qid
    let st := st.writes (packagePrefix qid ++ qid.nm.str ++ "__" ++ method.str ++ "(")
    let st ←
      if qid.nm = .utility then pure st
      else do
        let st := st.writes stripped.2
        let st ← wE st recv false depth
        pure (if 0 < args.length then st.writes ", " else st)
    writeArgs wE st args depth

/-- The `reset` special case of `writeExprOther` (expr.go lines
1457-1478): lowers to an `initialize` call wrapped in
`wuffs_base__ignore_status`. -/
def writeExprReset (wE : WExpr) (st : GState) (recvTyp : MType) (recv : MExpr)
    (depth : Nat) : Except GErr GState :=
  let stripped :=
    match recvTyp.decorator with
    | some .nptr | some .ptr => (recvTyp.inner, "")
    | _ => (recvTyp, "&")
  if stripped.1.decorator ≠ none then
    .error (.hard "cannot generate reset method call for this receiver type")
  else do
    let qid := stripped.1.qid
    let st := st.writes ("wuffs_base__ignore_status(" ++ packagePrefix qid ++ qid.nm.str ++
      "__initialize(" ++ stripped.2)
    let st ← wE st recv false depth
    return st.writes (", sizeof (" ++ packagePrefix qid ++ qid.nm.str ++
      "), WUFFS_VERSION, 0))")

/-- `writeExprOther` (expr.go lines 1414-1610): identifiers, calls
(builtin dispatch with fallback on exactly the not-a-builtin signal),
indexing, slicing and field access.  The string-literal status and named
scalar-constant identifier branches key on interning tables outside this
slice and are not modelled; the slice lowering's array-bound folding is
abbreviated to its recursion and constructor-name structure. -/
def writeExprOther (wE : WExpr) (st : GState) (n : MExpr) (sideEffectsOnly : Bool)
    (depth : Nat) : Except GErr GState :=
  match n with
  | .ident nm =>
    if nm = "this" then .ok (st.writes "self")
    else if nm = "coroutine_resumed" then
      if st.funk.isCoroutine then
        .ok (st.writes ("(self->private_impl." ++ pPrefix ++ st.funk.funcName ++ "[0] != 0)"))
      else .ok (st.writes "false")
    else .ok (st.writes (vPrefix ++ nm))
  | .call recvTyp recv method _coroutine args =>
    match writeBuiltinCall wE st n sideEffectsOnly depth with
    | .error .noSuchBuiltin =>
      if method = .reset then writeExprReset wE st recvTyp recv depth
      else writeExprUserDefinedCall wE st recvTyp recv method args depth
    | r => r
  | .indexOp lhsIsSlice lhs rhs => do
    let st ← wE st lhs false depth
    let st := if lhsIsSlice then st.writes ".ptr" else st
    let st := st.writes "["
    let st ← wE st rhs false depth
    return st.writes "]"
  | .sliceOp lhsArrayLen lhs mhs rhs => do
    let st :=
      match mhs, rhs with
      | some _, none => st.writes "wuffs_base__slice_u8__subslice_i("
      | none, some _ => st.writes "wuffs_base__slice_u8__subslice_j("
      | some _, some _ => st.writes "wuffs_base__slice_u8__subslice_ij("
      | none, none => st
    let st := if lhsArrayLen.isSome then st.writes "wuffs_base__make_slice_u8(" else st
    let st ← wE st lhs false depth
    let st :=
      match lhsArrayLen with
      | some len => (st.writes ", ").writes (toString len ++ ")")
      | none => st
    let st ←
      match mhs with
      | some m => do
        let st := st.writes ", "
        wE st m false depth
      | none => pure st
    let st ←
      match rhs with
      | some r => do
        let st := st.writes ", "
        wE st r false depth
      | none => pure st
    return (if mhs.isSome ∨ rhs.isSome then st.writes ")" else st)
  | .dot lhs nm =>
    match lhs with
    | .ident lhsNm =>
      if lhsNm = "args" then .ok (st.writes (aPrefix ++ nm))
      else do
        let st ← wE st lhs false depth
        return st.writes ("." ++ fPrefix ++ nm)
    | _ => do
      let st ← wE st lhs false depth
      return st.writes ("." ++ fPrefix ++ nm)
  | _ => .error (.hard "unrecognized token for writeExprOther")

/-- `writeExpr` (expr.go lines 1375-1412): the recursive-descent driver.
Nesting deeper than the fixed ceiling is a reported error before any
recursion; a folded constant prints without recursion; otherwise dispatch
on the operator class.  The explicit `gas` fuel makes the recursion
structural; the canonical entry point supplies enough gas that the fuel
can never run out before the depth ceiling fires. -/
def writeExpr : Nat → GState → MExpr → Bool → Nat → Except GErr GState
  | 0, _, _, _, _ => .error .outOfGas
  | gas + 1, st, n, sideEffectsOnly, depth =>
    if MaxExprDepth < depth then .error (.hard "expression recursion depth too large")
    else
      let depth := depth + 1
      match n with
      | .lit t cv => writeExprConst st t cv
      | .unaryNeg _ => writeExprUnaryOp (writeExpr gas) st n depth
      | .binPlus _ _ => writeExprBinaryOp (writeExpr gas) st n depth
      | .assoc _ => writeExprAssociativeOp (writeExpr gas) st n depth
      | _ => writeExprOther (writeExpr gas) st n sideEffectsOnly depth

/-- The canonical entry to the expression writer, at depth 0 with enough
fuel that `outOfGas` is unreachable (the depth ceiling fires first). -/
def writeExprTop (st : GState) (n : MExpr) (sideEffectsOnly : Bool) : Except GErr GState :=
  writeExpr (MaxExprDepth + 2) st n sideEffectsOnly 0

/-- A second definition following the spec's words, for comparison with
`matchFooIndexIndexPlus8`: one side of the 8-byte copy peephole matches
when its slice bounds reduce, after constant folding, to either "no lower
bound, upper bound = literal 8" or "lower bound = some expression E,
upper bound = E + literal 8". -/
def specSlice8Shape (n : MExpr) : Bool :=
  match n with
  | .sliceOp _ _ none (some hi) => hi.constValue = some 8
  | .sliceOp _ _ (some e) (some (.binPlus l r)) => l.eqb e && (r.constValue = some 8)
  | _ => false

/-- A degenerate expression-writer callback that emits nothing and always
succeeds, used to exercise the dispatcher at concrete inputs. -/
def okWE : WExpr := fun st _48 _49 _50 => .ok st

/-- A family of expression trees of unbounded nesting depth: `h` nested
unary negations over a plain identifier, used to exercise the
recursion-depth ceiling. -/
def negChain : Nat → MExpr
  | 0 => .ident "x"
  | h + 1 => .unaryNeg (negChain h)

/-- The output accumulated by the negation-chain run: one " - " per
nesting level. -/
def chainPrefix : Nat → GState → GState
  | 0, st => st
  | h + 1, st => chainPrefix h (st.writes " - ")

/-- The lazily-emitted per-function prologue declaration of the empty
I/O buffer singleton (builtin.go lines 140-147). -/
def emptyIODecl : String :=
  "wuffs_base__io_buffer empty_io_buffer = " ++ "wuffs_base__empty_io_buffer();\n\n"

/-- A concrete call expression whose receiver type lives in a user
package, so no builtin lowering applies. -/
def userPkgCall : MExpr :=
  .call (.base ⟨.user "mylib", .userDefined "foo"⟩) (.ident "r") (.other "bar") false []

/-! ### Helper lemmas -/

/-- OR of bit-disjoint operands is addition: `a` shifted above `i` bits
OR-ed with `b < 2 ^ i`. -/
theorem lor_eq_add_of_lt {i : Nat} (a b : Nat) (h : b < 2 ^ i) :
    (a * 2 ^ i) ||| b = a * 2 ^ i + b := by
  rw [Nat.mul_comm]
  exact (Nat.mul_add_lt_is_or h a).symm

/-- The skipped-when-constant-zero terms of the simple token emission do
not change the denoted value. -/
theorem simpleTokenFastValue_skip_eq (s1 s2 : Bool) (a b c d : Nat)
    (h1 : s1 = true → a = 0) (h2 : s2 = true → c = 0) :
    simpleTokenFastValue s1 s2 a b c d = simpleTokenFastValue false false a b c d := by
  cases s1 <;> cases s2 <;>
    simp_all [simpleTokenFastValue, u64, Nat.zero_shiftLeft]

/-- The simple token emission as plain positional arithmetic. -/
theorem simpleTokenFastValue_eq_add (a b c d : Nat)
    (ha : a < 2 ^ 22) (hb : b < 2 ^ 25) (hc : c < 2) (hd : d < 2 ^ 16) :
    simpleTokenFastValue false false a b c d =
      a * 2 ^ 42 + b * 2 ^ 17 + c * 2 ^ 16 + d := by
  unfold simpleTokenFastValue u64 VALUE_MAJOR__SHIFT VALUE_MINOR__SHIFT CONTINUED__SHIFT
    LENGTH__SHIFT
  simp only [Bool.false_eq_true, if_false, Nat.shiftLeft_eq]
  rw [Nat.mod_eq_of_lt (a := a * 2 ^ 42) (by omega),
      Nat.mod_eq_of_lt (a := b * 2 ^ 17) (by omega),
      Nat.mod_eq_of_lt (a := c * 2 ^ 16) (by omega),
      Nat.mod_eq_of_lt (a := d * 2 ^ 0) (by omega)]
  have e1 : (a * 2 ^ 42) ||| (b * 2 ^ 17) = a * 2 ^ 42 + b * 2 ^ 17 :=
    lor_eq_add_of_lt (i := 42) a (b * 2 ^ 17) (by omega)
  have e2 : (a * 2 ^ 42 + b * 2 ^ 17) ||| (c * 2 ^ 16) =
      a * 2 ^ 42 + b * 2 ^ 17 + c * 2 ^ 16 := by
    have hX : a * 2 ^ 42 + b * 2 ^ 17 = (a * 2 ^ 25 + b) * 2 ^ 17 := by ring
    rw [hX, lor_eq_add_of_lt (i := 17) _ _ (by omega)]
  have e3 : (a * 2 ^ 42 + b * 2 ^ 17 + c * 2 ^ 16) ||| (d * 2 ^ 0) =
      a * 2 ^ 42 + b * 2 ^ 17 + c * 2 ^ 16 + d := by
    have hY : a * 2 ^ 42 + b * 2 ^ 17 + c * 2 ^ 16 = (a * 2 ^ 26 + b * 2 + c) * 2 ^ 16 := by
      ring
    rw [hY, lor_eq_add_of_lt (i := 16) _ _ (by omega)]
    ring
  rw [e1, e2, e3]
  exact Nat.mod_eq_of_lt (by omega)

/-- The skipped-when-constant-zero continued term of the extended token
emission does not change the denoted value. -/
theorem extendedTokenFastValue_skip_eq (s : Bool) (ext c d : Nat) (h : s = true → c = 0) :
    extendedTokenFastValue s ext c d = extendedTokenFastValue false ext c d := by
  cases s <;> simp_all [extendedTokenFastValue, u64, Nat.zero_shiftLeft]

/-- The extended token emission as plain positional arithmetic: the
complemented extension occupies the bits from `VALUE_EXTENSION__SHIFT`
up. -/
theorem extendedTokenFastValue_eq_add (ext c d : Nat)
    (hext : ext < 2 ^ 47) (hc : c < 2) (hd : d < 2 ^ 16) :
    extendedTokenFastValue false ext c d =
      (2 ^ 47 - 1 - ext) * 2 ^ 17 + c * 2 ^ 16 + d := by
  unfold extendedTokenFastValue u64 VALUE_EXTENSION__SHIFT CONTINUED__SHIFT LENGTH__SHIFT
  simp only [Bool.false_eq_true, if_false, Nat.shiftLeft_eq]
  rw [Nat.mod_eq_of_lt (a := ext) (by omega)]
  have eM : (2 ^ 64 - 1 - ext) * 2 ^ 17 % 2 ^ 64 = (2 ^ 47 - 1 - ext) * 2 ^ 17 := by
    have hsplit : 2 ^ 64 - 1 - ext = (2 ^ 17 - 1) * 2 ^ 47 + (2 ^ 47 - 1 - ext) := by omega
    rw [hsplit, Nat.add_mul, Nat.mul_assoc]
    have h47 : (2 : Nat) ^ 47 * 2 ^ 17 = 2 ^ 64 := by norm_num
    rw [h47, Nat.add_comm, Nat.add_mul_mod_self_right]
    exact Nat.mod_eq_of_lt (by omega)
  rw [eM,
      Nat.mod_eq_of_lt (a := c * 2 ^ 16) (by omega),
      Nat.mod_eq_of_lt (a := d * 2 ^ 0) (by omega)]
  have e1 : ((2 ^ 47 - 1 - ext) * 2 ^ 17) ||| (c * 2 ^ 16) =
      (2 ^ 47 - 1 - ext) * 2 ^ 17 + c * 2 ^ 16 :=
    lor_eq_add_of_lt (i := 17) _ _ (by omega)
  have e2 : ((2 ^ 47 - 1 - ext) * 2 ^ 17 + c * 2 ^ 16) ||| (d * 2 ^ 0) =
      (2 ^ 47 - 1 - ext) * 2 ^ 17 + c * 2 ^ 16 + d := by
    have hY : (2 ^ 47 - 1 - ext) * 2 ^ 17 + c * 2 ^ 16 =
        ((2 ^ 47 - 1 - ext) * 2 + c) * 2 ^ 16 := by ring
    rw [hY, lor_eq_add_of_lt (i := 16) _ _ (by omega)]
    ring
  rw [e1, e2]
  exact Nat.mod_eq_of_lt (by omega)

/-- C1.  For `write_simple_token_fast`, the emitted 64-bit token
expression is the bitwise OR of up to four sub-fields, each shifted by its
named shift constant (terms whose argument constant-folds to zero are
skipped without changing the value); right-shifting and masking the
emitted value at those offsets decodes back exactly the four argument
sub-fields.  For `write_extended_token_fast` the value-major/value-minor
pair is replaced by the complemented extension value shifted by
`VALUE_EXTENSION__SHIFT`: complementing the decoded extension field
recovers the argument, and the continued/length fields decode unchanged. -/
theorem C1_token_pack_roundtrip (vmajSkip contSkip : Bool) (vmaj vmin cont len ext : Nat)
    (hskip1 : vmajSkip = true → vmaj = 0) (hskip2 : contSkip = true → cont = 0)
    (h1 : vmaj < 2 ^ 22) (h2 : vmin < 2 ^ 25) (h3 : cont < 2) (h4 : len < 2 ^ 16)
    (hext : ext < 2 ^ 47) :
    tokenValueMajor (simpleTokenFastValue vmajSkip contSkip vmaj vmin cont len) = vmaj ∧
    tokenValueMinor (simpleTokenFastValue vmajSkip contSkip vmaj vmin cont len) = vmin ∧
    tokenContinued (simpleTokenFastValue vmajSkip contSkip vmaj vmin cont len) = cont ∧
    tokenLength (simpleTokenFastValue vmajSkip contSkip vmaj vmin cont len) = len ∧
    2 ^ 47 - 1 - tokenValueExtension (extendedTokenFastValue contSkip ext cont len) = ext ∧
    tokenContinued (extendedTokenFastValue contSkip ext cont len) = cont ∧
    tokenLength (extendedTokenFastValue contSkip ext cont len) = len := by
  rw [simpleTokenFastValue_skip_eq vmajSkip contSkip vmaj vmin cont len hskip1 hskip2,
      simpleTokenFastValue_eq_add vmaj vmin cont len h1 h2 h3 h4,
      extendedTokenFastValue_skip_eq contSkip ext cont len hskip2,
      extendedTokenFastValue_eq_add ext cont len hext h3 h4]
  unfold tokenValueMajor tokenValueMinor tokenValueExtension tokenContinued tokenLength
    VALUE_MAJOR__SHIFT VALUE_MINOR__SHIFT VALUE_EXTENSION__SHIFT CONTINUED__SHIFT LENGTH__SHIFT
  simp only [Nat.shiftRight_eq_div_pow, Nat.and_pow_two_sub_one_eq_mod]
  refine ⟨by omega, by omega, by omega, by omega, by omega, by omega, by omega⟩

/-- C1 witness: the spec's example, value-major 0 (its term is skipped),
value-minor 5, continued 1, length 10, and extension 77. -/
theorem C1_token_pack_roundtrip_witness :
    tokenValueMajor (simpleTokenFastValue true false 0 5 1 10) = 0 ∧
    tokenValueMinor (simpleTokenFastValue true false 0 5 1 10) = 5 ∧
    tokenContinued (simpleTokenFastValue true false 0 5 1 10) = 1 ∧
    tokenLength (simpleTokenFastValue true false 0 5 1 10) = 10 ∧
    2 ^ 47 - 1 - tokenValueExtension (extendedTokenFastValue false 77 1 10) = 77 ∧
    tokenContinued (extendedTokenFastValue false 77 1 10) = 1 ∧
    tokenLength (extendedTokenFastValue false 77 1 10) = 10 :=
  C1_token_pack_roundtrip true false 0 5 1 10 77
    (fun _ => rfl) (fun h => by cases h)
    (by norm_num) (by norm_num) (by norm_num) (by norm_num) (by norm_num)


/-! ### C2: the multi-byte read state machine -/

/-- A value below `2 ^ a`, shifted up to the top of a `b`-bit word, stays
below `2 ^ b`. -/
theorem mul_pow_sub_lt {v a b : Nat} (h : a ≤ b) (hv : v < 2 ^ a) :
    v * 2 ^ (b - a) < 2 ^ b := by
  have h2 : (2 : Nat) ^ a * 2 ^ (b - a) = 2 ^ b := by
    rw [← pow_add]
    congr 1
    omega
  calc v * 2 ^ (b - a) < 2 ^ a * 2 ^ (b - a) :=
        (Nat.mul_lt_mul_right (Nat.pos_pow_of_pos _ (by norm_num))).mpr hv
    _ = 2 ^ b := h2

theorem readLoopStep_be (k yy j v b : Nat) (hk : k ≤ 8) (hj : j < k)
    (hv : v < 2 ^ (8 * j)) (hb : b < 256) :
    readLoopStep (8 * k) yy .be (v * 2 ^ (64 - 8 * j) + 8 * j) b =
      if j = k - 1 then .inr ((v * 256 + b) % 2 ^ yy)
      else .inl ((v * 256 + b) * 2 ^ (64 - 8 * (j + 1)) + 8 * (j + 1)) := by
  have h8j : 8 * j ≤ 56 := by omega
  have hXeq : v * 2 ^ (64 - 8 * j) = 2 ^ 8 * (v * 2 ^ (56 - 8 * j)) := by
    rw [show (64 - 8 * j) = (56 - 8 * j) + 8 by omega, pow_add]
    ring
  have hvlt64 : v * 2 ^ (64 - 8 * j) < 2 ^ 64 := mul_pow_sub_lt (by omega) hv
  have hpow : (2 : Nat) ^ (8 * (j + 1)) = 2 ^ (8 * j) * 256 := by
    rw [show 8 * (j + 1) = 8 * j + 8 by ring, pow_add]
    norm_num
  have hv' : v * 256 + b < 2 ^ (8 * (j + 1)) := by
    rw [hpow]
    omega
  have hV'lt64 : (v * 256 + b) * 2 ^ (64 - 8 * (j + 1)) < 2 ^ 64 :=
    mul_pow_sub_lt (by omega) hv'
  have hnum : (v * 2 ^ (64 - 8 * j) + 8 * j) &&& 0xFF = 8 * j := by
    rw [show (0xFF : Nat) = 2 ^ 8 - 1 by norm_num, Nat.and_pow_two_sub_one_eq_mod, hXeq,
      Nat.mul_add_mod]
    omega
  have hs1 : u64 (((v * 2 ^ (64 - 8 * j) + 8 * j) >>> 8) <<< 8) = v * 2 ^ (64 - 8 * j) := by
    rw [Nat.shiftRight_eq_div_pow, Nat.shiftLeft_eq, hXeq, Nat.mul_add_div (by norm_num),
      show (8 * j) / 2 ^ 8 = 0 by omega, Nat.add_zero]
    have : v * 2 ^ (56 - 8 * j) * 2 ^ 8 = 2 ^ 8 * (v * 2 ^ (56 - 8 * j)) := by ring
    rw [this]
    exact Nat.mod_eq_of_lt (by rw [← hXeq]; exact hvlt64)
  have hb2 : u64 (b <<< (56 - 8 * j)) = b * 2 ^ (56 - 8 * j) := by
    rw [Nat.shiftLeft_eq]
    refine Nat.mod_eq_of_lt ?_
    have h1 : b * 2 ^ (56 - 8 * j) ≤ 255 * 2 ^ 56 :=
      Nat.mul_le_mul (by omega) (Nat.pow_le_pow_right (by norm_num) (by omega))
    omega
  have hfold : u64 (v * 2 ^ (64 - 8 * j) ||| u64 (b <<< (56 - 8 * j))) =
      (v * 256 + b) * 2 ^ (64 - 8 * (j + 1)) := by
    rw [hb2]
    have hblt : b * 2 ^ (56 - 8 * j) < 2 ^ (64 - 8 * j) := by
      rw [show (56 - 8 * j) = (64 - 8 * j) - 8 by omega]
      exact mul_pow_sub_lt (by omega) (by omega)
    have hlor : v * 2 ^ (64 - 8 * j) ||| b * 2 ^ (56 - 8 * j) =
        v * 2 ^ (64 - 8 * j) + b * 2 ^ (56 - 8 * j) := lor_eq_add_of_lt _ _ hblt
    rw [hlor]
    have hE : v * 2 ^ (64 - 8 * j) + b * 2 ^ (56 - 8 * j) =
        (v * 256 + b) * 2 ^ (64 - 8 * (j + 1)) := by
      rw [show (64 - 8 * j) = (64 - 8 * (j + 1)) + 8 by omega,
          show (56 - 8 * j) = 64 - 8 * (j + 1) by omega, pow_add]
      ring
    rw [hE]
    exact Nat.mod_eq_of_lt hV'lt64
  simp only [readLoopStep, hnum, hs1, hfold]
  by_cases hcase : j = k - 1
  · rw [if_pos (by omega), if_pos hcase]
    have hE : 64 - 8 * (j + 1) = 64 - 8 * k := by omega
    rw [hE, Nat.shiftRight_eq_div_pow,
      Nat.mul_div_cancel _ (Nat.pos_pow_of_pos _ (by norm_num))]
  · rw [if_neg (by omega), if_neg hcase]
    have h1 : u64 (8 * j + 8) = 8 * j + 8 := Nat.mod_eq_of_lt (by omega)
    rw [h1, lor_eq_add_of_lt _ _ (show 8 * j + 8 < 2 ^ (64 - 8 * (j + 1)) by
      calc 8 * j + 8 < 2 ^ 8 := by omega
        _ ≤ 2 ^ (64 - 8 * (j + 1)) := Nat.pow_le_pow_right (by norm_num) (by omega))]
    have h2 : u64 ((v * 256 + b) * 2 ^ (64 - 8 * (j + 1)) + (8 * j + 8)) =
        (v * 256 + b) * 2 ^ (64 - 8 * (j + 1)) + (8 * j + 8) := by
      apply Nat.mod_eq_of_lt
      have hmod : (v * 256 + b) * 2 ^ (64 - 8 * (j + 1)) % 2 ^ 8 = 0 := by
        rw [show (64 - 8 * (j + 1)) = ((64 - 8 * (j + 1)) - 8) + 8 by omega, pow_add,
          ← Nat.mul_assoc, Nat.mul_mod_left]
      omega
    rw [h2, show 8 * j + 8 = 8 * (j + 1) by omega]


theorem readLoopStep_le (k yy j v b : Nat) (hk : k ≤ 8) (hj : j < k)
    (hv : v < 2 ^ (8 * j)) (hb : b < 256) :
    readLoopStep (8 * k) yy .le (8 * j * 2 ^ 56 + v) b =
      if j = k - 1 then .inr ((v + b * 2 ^ (8 * j)) % 2 ^ yy)
      else .inl (8 * (j + 1) * 2 ^ 56 + (v + b * 2 ^ (8 * j))) := by
  have h8j : 8 * j ≤ 56 := by omega
  have hv56 : v < 2 ^ 56 := lt_of_lt_of_le hv (Nat.pow_le_pow_right (by norm_num) h8j)
  have hpow : (2 : Nat) ^ (8 * (j + 1)) = 2 ^ (8 * j) * 256 := by
    rw [show 8 * (j + 1) = 8 * j + 8 by ring, pow_add]
    norm_num
  have hb8 : b * 2 ^ (8 * j) ≤ 255 * 2 ^ 56 :=
    Nat.mul_le_mul (by omega) (Nat.pow_le_pow_right (by norm_num) h8j)
  have hs2lt : v + b * 2 ^ (8 * j) < 2 ^ (8 * (j + 1)) := by
    rw [hpow]
    have : b * 2 ^ (8 * j) ≤ 255 * 2 ^ (8 * j) := Nat.mul_le_mul_right _ (by omega)
    omega
  have hnum : (8 * j * 2 ^ 56 + v) >>> 56 = 8 * j := by
    rw [Nat.shiftRight_eq_div_pow,
      show 8 * j * 2 ^ 56 = 2 ^ 56 * (8 * j) by ring,
      Nat.mul_add_div (by norm_num), Nat.div_eq_of_lt hv56, Nat.add_zero]
  have hs1 : u64 (u64 ((8 * j * 2 ^ 56 + v) <<< 8) >>> 8) = v := by
    rw [Nat.shiftLeft_eq, Nat.add_mul,
      show 8 * j * 2 ^ 56 * 2 ^ 8 = 2 ^ 64 * (8 * j) by
        rw [Nat.mul_assoc, show (2 : Nat) ^ 56 * 2 ^ 8 = 2 ^ 64 by norm_num]
        ring]
    have hm : u64 (2 ^ 64 * (8 * j) + v * 2 ^ 8) = v * 2 ^ 8 := by
      have h1 : (2 ^ 64 * (8 * j) + v * 2 ^ 8) % 2 ^ 64 = v * 2 ^ 8 % 2 ^ 64 :=
        Nat.mul_add_mod _ _ _
      have h2 : v * 2 ^ 8 < 2 ^ 64 := by
        have : v * 2 ^ 8 ≤ 255 * 2 ^ 56 * 2 ^ 8 := by
          have := Nat.mul_le_mul_right (2 ^ 8) (Nat.le_of_lt hv56)
          omega
        omega
      calc u64 (2 ^ 64 * (8 * j) + v * 2 ^ 8) = v * 2 ^ 8 % 2 ^ 64 := h1
        _ = v * 2 ^ 8 := Nat.mod_eq_of_lt h2
    rw [hm, Nat.shiftRight_eq_div_pow, Nat.mul_div_cancel _ (by norm_num : 0 < (2:Nat) ^ 8)]
    exact Nat.mod_eq_of_lt (by omega)
  have hb2 : u64 (b <<< (8 * j)) = b * 2 ^ (8 * j) := by
    rw [Nat.shiftLeft_eq]
    exact Nat.mod_eq_of_lt (by omega)
  have hfold : u64 (v ||| u64 (b <<< (8 * j))) = v + b * 2 ^ (8 * j) := by
    rw [hb2, Nat.lor_comm, lor_eq_add_of_lt _ _ hv]
    rw [Nat.add_comm (b * 2 ^ (8 * j)) v]
    exact Nat.mod_eq_of_lt (by omega)
  simp only [readLoopStep, hnum, hs1, hfold]
  by_cases hcase : j = k - 1
  · rw [if_pos (by omega), if_pos hcase]
  · rw [if_neg (by omega), if_neg hcase]
    have h3 : u64 ((8 * j + 8) <<< 56) = (8 * j + 8) * 2 ^ 56 := by
      rw [Nat.shiftLeft_eq]
      exact Nat.mod_eq_of_lt (by omega)
    rw [h3, Nat.lor_comm, lor_eq_add_of_lt _ _ (by
      calc v + b * 2 ^ (8 * j) < 2 ^ (8 * (j + 1)) := hs2lt
        _ ≤ 2 ^ 56 := Nat.pow_le_pow_right (by norm_num) (by omega))]
    have h4 : u64 ((8 * j + 8) * 2 ^ 56 + (v + b * 2 ^ (8 * j))) =
        (8 * j + 8) * 2 ^ 56 + (v + b * 2 ^ (8 * j)) := by
      refine Nat.mod_eq_of_lt ?_
      have : (8 * j + 8) * 2 ^ 56 ≤ 64 * 2 ^ 56 := Nat.mul_le_mul_right _ (by omega)
      have h5 : v + b * 2 ^ (8 * j) < 2 ^ 56 := lt_of_lt_of_le hs2lt
        (Nat.pow_le_pow_right (by norm_num) (by omega))
      omega
    rw [h4, show 8 * j + 8 = 8 * (j + 1) by ring]

theorem readLoopRun_append (xx yy : Nat) (e : Endianness) (s : Nat) (l1 l2 : List Nat) :
    readLoopRun xx yy e s (l1 ++ l2) =
      (match readLoopRun xx yy e s l1 with
       | .inl s2 => readLoopRun xx yy e s2 l2
       | .inr (t, rest) => .inr (t, rest ++ l2)) := by
  induction l1 generalizing s with
  | nil => simp [readLoopRun]
  | cons b bs ih =>
    simp only [List.cons_append, readLoopRun]
    cases readLoopStep xx yy e s b with
    | inl s2 => simpa using ih s2
    | inr t => rfl

theorem readLoopRun_be (k yy : Nat) (hk2 : 2 ≤ k) (hk8 : k ≤ 8) :
    ∀ (bs : List Nat) (j v : Nat), j + bs.length = k → bs ≠ [] →
      v < 2 ^ (8 * j) → (∀ b ∈ bs, b < 256) →
      readLoopRun (8 * k) yy .be (v * 2 ^ (64 - 8 * j) + 8 * j) bs =
        .inr (beValueFrom v bs % 2 ^ yy, [])
  | [], _, _, _, hne, _, _ => absurd rfl hne
  | b :: rest, j, v, hlen, _, hv, hb => by
    have hj : j < k := by
      simp only [List.length_cons] at hlen
      omega
    have hstep := readLoopStep_be k yy j v b hk8 hj hv (hb b (by simp))
    by_cases hcase : j = k - 1
    · have hrest : rest = [] := by
        have : rest.length = 0 := by
          simp only [List.length_cons] at hlen
          omega
        exact List.length_eq_zero.mp this
      subst hrest
      rw [if_pos hcase] at hstep
      simp only [readLoopRun, hstep, beValueFrom]
    · rw [if_neg hcase] at hstep
      have hrest : rest ≠ [] := by
        intro h
        subst h
        simp only [List.length_cons, List.length_nil] at hlen
        omega
      have hpow : (2 : Nat) ^ (8 * (j + 1)) = 2 ^ (8 * j) * 256 := by
        rw [show 8 * (j + 1) = 8 * j + 8 by ring, pow_add]
        norm_num
      have hbb : b < 256 := hb b (by simp)
      have hv2 : v * 256 + b < 2 ^ (8 * (j + 1)) := by
        rw [hpow]
        omega
      have ih := readLoopRun_be k yy hk2 hk8 rest (j + 1) (v * 256 + b)
        (by simp only [List.length_cons] at hlen; omega) hrest hv2
        (fun x hx => hb x (by simp [hx]))
      simp only [readLoopRun, hstep, ih, beValueFrom]

theorem readLoopRun_le (k yy : Nat) (hk2 : 2 ≤ k) (hk8 : k ≤ 8) :
    ∀ (bs : List Nat) (j v : Nat), j + bs.length = k → bs ≠ [] →
      v < 2 ^ (8 * j) → (∀ b ∈ bs, b < 256) →
      readLoopRun (8 * k) yy .le (8 * j * 2 ^ 56 + v) bs =
        .inr ((v + 2 ^ (8 * j) * leValue bs) % 2 ^ yy, [])
  | [], _, _, _, hne, _, _ => absurd rfl hne
  | b :: rest, j, v, hlen, _, hv, hb => by
    have hj : j < k := by
      simp only [List.length_cons] at hlen
      omega
    have hstep := readLoopStep_le k yy j v b hk8 hj hv (hb b (by simp))
    have hpow : (2 : Nat) ^ (8 * (j + 1)) = 2 ^ (8 * j) * 256 := by
      rw [show 8 * (j + 1) = 8 * j + 8 by ring, pow_add]
      norm_num
    have hbb : b < 256 := hb b (by simp)
    by_cases hcase : j = k - 1
    · have hrest : rest = [] := by
        have : rest.length = 0 := by
          simp only [List.length_cons] at hlen
          omega
        exact List.length_eq_zero.mp this
      subst hrest
      rw [if_pos hcase] at hstep
      simp only [readLoopRun, hstep, leValue]
      have : v + b * 2 ^ (8 * j) = v + 2 ^ (8 * j) * (b + 256 * 0) := by ring
      rw [this]
    · rw [if_neg hcase] at hstep
      have hrest : rest ≠ [] := by
        intro h
        subst h
        simp only [List.length_cons, List.length_nil] at hlen
        omega
      have hv2 : v + b * 2 ^ (8 * j) < 2 ^ (8 * (j + 1)) := by
        rw [hpow]
        have : b * 2 ^ (8 * j) ≤ 255 * 2 ^ (8 * j) := Nat.mul_le_mul_right _ (by omega)
        omega
      have ih := readLoopRun_le k yy hk2 hk8 rest (j + 1) (v + b * 2 ^ (8 * j))
        (by simp only [List.length_cons] at hlen; omega) hrest hv2
        (fun x hx => hb x (by simp [hx]))
      simp only [readLoopRun, hstep, ih, leValue]
      have : v + b * 2 ^ (8 * j) + 2 ^ (8 * (j + 1)) * leValue rest =
          v + 2 ^ (8 * j) * (b + 256 * leValue rest) := by
        rw [hpow]
        ring
      rw [this]

/-- C2.  For a suspending `xx`-bits-as-`yy`-bits read (`16 ≤ xx ≤ 64`,
`xx` a multiple of 8, either endianness): the byte-at-a-time loop started
from a zeroed scratch slot consumes exactly `xx/8` bytes and commits the
same widened value as the fast path's single bulk peek
(`readUxxAsUyyRun`, taken when at least `xx/8` bytes are available); and
running the loop over any split of the input (suspending with the scratch
persisted whenever the current invocation's bytes run out, resuming from
it on the next) gives the same outcome as a single invocation, so
byte-per-invocation resumption yields the same value as a
single-invocation read. -/
theorem C2_read_multibyte_correct (xx yy : Nat) (e : Endianness) (bs : List Nat)
    (s : Nat) (l1 l2 : List Nat)
    (hxx1 : 16 ≤ xx) (hxx2 : xx ≤ 64) (hxx8 : xx % 8 = 0)
    (hlen : bs.length = xx / 8) (hbytes : ∀ b ∈ bs, b < 256) :
    readLoopRun xx yy e 0 bs = .inr (peekValue e bs % 2 ^ yy, []) ∧
    readUxxAsUyyRun xx yy e bs = .inr (peekValue e bs % 2 ^ yy, []) ∧
    readLoopRun xx yy e s (l1 ++ l2) =
      (match readLoopRun xx yy e s l1 with
       | .inl s2 => readLoopRun xx yy e s2 l2
       | .inr (t, rest) => .inr (t, rest ++ l2)) := by
  obtain ⟨k, rfl⟩ : ∃ k, xx = 8 * k := ⟨xx / 8, by omega⟩
  have hk2 : 2 ≤ k := by omega
  have hk8 : k ≤ 8 := by omega
  have hlen2 : bs.length = k := by omega
  have hne : bs ≠ [] := by
    intro h
    subst h
    simp only [List.length_nil] at hlen2
    omega
  have hloop : readLoopRun (8 * k) yy e 0 bs = .inr (peekValue e bs % 2 ^ yy, []) := by
    cases e with
    | be =>
      have h := readLoopRun_be k yy hk2 hk8 bs 0 0 (by omega) hne (by norm_num) hbytes
      simpa [peekValue] using h
    | le =>
      have h := readLoopRun_le k yy hk2 hk8 bs 0 0 (by omega) hne (by norm_num) hbytes
      simpa [peekValue] using h
  refine ⟨hloop, ?_, readLoopRun_append _ _ _ _ _ _⟩
  unfold readUxxAsUyyRun
  rw [if_pos (by omega), show 8 * k / 8 = k by omega, ← hlen2, List.take_length,
    List.drop_length]

/-- C2 witness: a 3-byte big-endian read widened to 32 bits, both in one
invocation and split one byte per invocation. -/
theorem C2_read_multibyte_correct_witness :
    readLoopRun 24 32 .be 0 [1, 2, 3] = .inr (peekValue .be [1, 2, 3] % 2 ^ 32, []) ∧
    readUxxAsUyyRun 24 32 .be [1, 2, 3] = .inr (peekValue .be [1, 2, 3] % 2 ^ 32, []) ∧
    readLoopRun 24 32 .be 0 ([1] ++ [2, 3]) =
      (match readLoopRun 24 32 .be 0 [1] with
       | .inl s2 => readLoopRun 24 32 .be s2 [2, 3]
       | .inr (t, rest) => .inr (t, rest ++ [2, 3])) :=
  C2_read_multibyte_correct 24 32 .be [1, 2, 3] 0 [1] [2, 3] (by norm_num) (by norm_num)
    (by norm_num) (by norm_num) (by decide)

/-! ### C4: low_bits lowering -/

/-- Reduction of an `Except` bind on a success value, for rewriting
inside the embedded writers' `do` chains. -/
theorem except_bind_ok {ε α β : Type} (x : α) (f : α → Except ε β) :
    (Except.ok x >>= f : Except ε β) = f x := rfl

set_option maxRecDepth 4000 in
/-- C4.  For `low_bits(n)` on a numeric receiver: when the argument is a
compile-time constant `v` with `0 ≤ v ≤ 64` the lowering masks with the
literal bitmask `2 ^ v - 1`; otherwise (non-constant or out-of-range
constant) it masks with the width-specific runtime constructor
`WUFFS_BASE__LOW_BITS_MASK__U{8 * sizeof(receiver)}(n)`, whose value is
`(1 <<< n) - 1` for every `n` in `[0, width]`; and masking with
`2 ^ n - 1` extracts exactly the `n` low bits.  The last conjunct shows
the emission `writeBuiltinNumType` itself prints the literal mask on the
constant path. -/
theorem C4_low_bits_lowering (cv : Option Int) (szRecv n w x gas : Nat) (st : GState)
    (r anm : String) (rt : MType) (v2 : Int)
    (hr1 : r ≠ "this") (hr2 : r ≠ "coroutine_resumed") (hv2a : 0 ≤ v2) (hv2b : v2 ≤ 64) :
    (∀ v : Int, cv = some v → 0 ≤ v → v ≤ 64 →
      lowBitsMaskChoice cv szRecv = .literal (1 <<< v.toNat - 1) ∧
      (1 <<< v.toNat - 1 : Nat) = 2 ^ v.toNat - 1) ∧
    (∀ v : Int, cv = some v → (v < 0 ∨ 64 < v) →
      lowBitsMaskChoice cv szRecv = .runtime (8 * szRecv)) ∧
    (cv = none → lowBitsMaskChoice cv szRecv = .runtime (8 * szRecv)) ∧
    (n ≤ w → lowBitsMaskRuntime w n = 2 ^ n - 1) ∧
    (x &&& (2 ^ n - 1) = x % 2 ^ n) ∧
    writeBuiltinNumType (writeExpr (gas + 1)) st (.ident r) rt .lowBits
        [(anm, .lit .num v2)] 0 =
      .ok ((((st.writes "((").writes (vPrefix ++ r)).writes ") & ").writes
        ("0x" ++ hexUpper (1 <<< v2.toNat - 1)) |>.writes ")") := by
  refine ⟨?_, ?_, ?_, ?_, Nat.and_pow_two_sub_one_eq_mod x n, ?_⟩
  · intro v hv h0 h64
    subst hv
    refine ⟨by simp [lowBitsMaskChoice, h0, h64], ?_⟩
    rw [Nat.shiftLeft_eq, Nat.one_mul]
  · intro v hv hrange
    subst hv
    have : ¬ (0 ≤ v ∧ v ≤ 64) := by omega
    simp [lowBitsMaskChoice, this]
  · intro hv
    subst hv
    rfl
  · intro _
    unfold lowBitsMaskRuntime
    rw [Nat.shiftLeft_eq, Nat.one_mul]
  · have hident : writeExpr (gas + 1) (st.writes "((") (.ident r) false 0 =
        .ok ((st.writes "((").writes (vPrefix ++ r)) := by
      simp only [writeExpr]
      rw [if_neg (by norm_num [MaxExprDepth])]
      simp only [writeExprOther]
      rw [if_neg hr1, if_neg hr2]
    unfold writeBuiltinNumType
    dsimp only
    rw [hident]
    simp only [List.head?, MExpr.constValue]
    rw [except_bind_ok]
    rw [if_pos (show (0 ≤ v2 ∧ v2 ≤ 64) from ⟨hv2a, hv2b⟩)]
    rfl

/-- C4 witness: `low_bits(3)` masks with the literal `0x7`. -/
theorem C4_low_bits_lowering_witness :
    (∀ v : Int, some (3 : Int) = some v → 0 ≤ v → v ≤ 64 →
      lowBitsMaskChoice (some 3) 1 = .literal (1 <<< v.toNat - 1) ∧
      (1 <<< v.toNat - 1 : Nat) = 2 ^ v.toNat - 1) ∧
    (∀ v : Int, some (3 : Int) = some v → (v < 0 ∨ 64 < v) →
      lowBitsMaskChoice (some 3) 1 = .runtime (8 * 1)) ∧
    (some (3 : Int) = none → lowBitsMaskChoice (some 3) 1 = .runtime (8 * 1)) ∧
    (3 ≤ 32 → lowBitsMaskRuntime 32 3 = 2 ^ 3 - 1) ∧
    ((5 : Nat) &&& (2 ^ 3 - 1) = 5 % 2 ^ 3) ∧
    writeBuiltinNumType (writeExpr (0 + 1)) {} (.ident "x")
        (.base ⟨.base, .u8⟩) .lowBits [("n", .lit .num 3)] 0 =
      .ok (((((GState.writes {} "((").writes (vPrefix ++ "x")).writes ") & ").writes
        ("0x" ++ hexUpper (1 <<< (3 : Int).toNat - 1))).writes ")") :=
  C4_low_bits_lowering (some 3) 1 3 32 5 0 {} "x" "n" (.base ⟨.base, .u8⟩) 3
    (by decide) (by decide) (by decide) (by decide)

/-! ### C5: skip suspend points -/

/-- The general-skip machine's accounting: across repeated invocations the
remaining count plus the total consumed equals the original count; while
suspended, everything available has been consumed; on completion the total
consumed is exactly the original count. -/
theorem skipRun_spec (avails : List Nat) : ∀ n : Nat,
    (∀ s c, skipRun n avails = .inl (s, c) → s + c = n ∧ c = avails.sum) ∧
    (∀ c, skipRun n avails = .inr c → c = n) := by
  induction avails with
  | nil =>
    intro n
    constructor
    · intro s c h
      simp only [skipRun, Sum.inl.injEq, Prod.mk.injEq] at h
      simp [← h.1, ← h.2]
    · intro c h
      exact Sum.noConfusion h
  | cons a rest ih =>
    intro n
    by_cases hlt : a < n
    · constructor
      · intro s c h
        simp only [skipRun, skipStep, if_pos hlt] at h
        cases hrec : skipRun (n - a) rest with
        | inl p =>
          rw [hrec] at h
          obtain ⟨s2, c2⟩ := p
          simp only [Sum.inl.injEq, Prod.mk.injEq] at h
          have := ((ih (n - a)).1 s2 c2 hrec)
          simp only [List.sum_cons]
          omega
        | inr c2 =>
          rw [hrec] at h
          exact Sum.noConfusion h
      · intro c h
        simp only [skipRun, skipStep, if_pos hlt] at h
        cases hrec : skipRun (n - a) rest with
        | inl p =>
          rw [hrec] at h
          obtain ⟨s2, c2⟩ := p
          exact Sum.noConfusion h
        | inr c2 =>
          rw [hrec] at h
          simp only [Sum.inr.injEq] at h
          have := (ih (n - a)).2 c2 hrec
          omega
    · constructor
      · intro s c h
        simp only [skipRun, skipStep, if_neg hlt] at h
        exact Sum.noConfusion h
      · intro c h
        simp only [skipRun, skipStep, if_neg hlt, Sum.inr.injEq] at h
        omega

/-- C5.  A suspending skip whose byte count constant-folds to 1 (and
likewise a single-byte read) lowers to a single availability check with no
loop and no scratch-slot use — the function context's scratch flag is
untouched; every other skip marks the scratch slot used (the remaining
count lives in `self->private_data.s_<func>[0].scratch`, not a local) and
the machine accounting shows the scratch is decremented by the available
bytes on each short-read suspension and the cursor advanced by the
remaining count on completion, totalling exactly the requested count. -/
theorem C5_skip_lowering (st : GState) (r anm : String) (v : Int) (d : Nat)
    (avails : List Nat) (n sc av : Nat)
    (htemp : st.funk.tempW ≤ maxTemp) (hv : v ≠ 1) :
    (writeBuiltinQuestionCall (writeExpr (MaxExprDepth + 1)) st
        (.call (.base ⟨.base, .ioReader⟩) (.ident r) .skip true [(anm, .lit .num 1)]) d =
      .ok (((st.writes "WUFFS_BASE__COROUTINE_SUSPENSION_POINT;\n").writes
        (shortReadCheck (vPrefix ++ r))).writes (iopPrefix ++ (vPrefix ++ r) ++ "++;\n")) ∧
      (((st.writes "WUFFS_BASE__COROUTINE_SUSPENSION_POINT;\n").writes
        (shortReadCheck (vPrefix ++ r))).writes (iopPrefix ++ (vPrefix ++ r) ++ "++;\n")).funk
        = st.funk) ∧
    (∃ st2, writeBuiltinQuestionCall (writeExpr (MaxExprDepth + 1)) st
        (.call (.base ⟨.base, .ioReader⟩) (.ident r) .skip true [(anm, .lit .num v)]) 0 =
      .ok st2 ∧ st2.funk.usesScratch = true ∧ st2.funk.tempW = st.funk.tempW) ∧
    (∃ st3, writeBuiltinQuestionCall (writeExpr (MaxExprDepth + 1)) st
        (.call (.base ⟨.base, .ioReader⟩) (.ident r) .readU8 true []) d =
      .ok st3 ∧ st3.funk.usesScratch = st.funk.usesScratch ∧
      st3.funk.tempW = st.funk.tempW + 1) ∧
    (av < sc → skipStep sc av = .inl (sc - av, av)) ∧
    (¬ av < sc → skipStep sc av = .inr sc) ∧
    (∀ s c, skipRun n avails = .inl (s, c) → s + c = n ∧ c = avails.sum) ∧
    (∀ c, skipRun n avails = .inr c → c = n) := by
  refine ⟨⟨rfl, rfl⟩, ?_, ?_, ?_, ?_, (skipRun_spec avails n).1, (skipRun_spec avails n).2⟩
  · simp only [writeBuiltinQuestionCall, recvName, MExpr.constValue, List.head?,
      except_bind_ok]
    rw [if_neg (show ¬ ((some v : Option Int) = some 1) by simpa using hv)]
    exact ⟨_, rfl, rfl, rfl⟩
  · simp only [writeBuiltinQuestionCall, recvName, writeCoroSuspPoint, except_bind_ok,
      GState.writes]
    rw [if_neg (show ¬ (maxTemp < st.funk.tempW) by omega)]
    exact ⟨_, rfl, rfl, rfl⟩
  · intro h
    simp [skipStep, if_pos h]
  · intro h
    simp [skipStep, if_neg h]

/-- C5 witness: skip of constant 1 versus skip of constant 5, with
availability sequence 2 then 3. -/
theorem C5_skip_lowering_witness :
    (writeBuiltinQuestionCall (writeExpr (MaxExprDepth + 1)) {}
        (.call (.base ⟨.base, .ioReader⟩) (.ident "src") .skip true [("n", .lit .num 1)]) 0 =
      .ok (((GState.writes {} "WUFFS_BASE__COROUTINE_SUSPENSION_POINT;\n").writes
        (shortReadCheck (vPrefix ++ "src"))).writes
          (iopPrefix ++ (vPrefix ++ "src") ++ "++;\n")) ∧
      (((GState.writes {} "WUFFS_BASE__COROUTINE_SUSPENSION_POINT;\n").writes
        (shortReadCheck (vPrefix ++ "src"))).writes
          (iopPrefix ++ (vPrefix ++ "src") ++ "++;\n")).funk = Funk.mk false false 0 [] "f" false) ∧
    (∃ st2, writeBuiltinQuestionCall (writeExpr (MaxExprDepth + 1)) {}
        (.call (.base ⟨.base, .ioReader⟩) (.ident "src") .skip true [("n", .lit .num 5)]) 0 =
      .ok st2 ∧ st2.funk.usesScratch = true ∧ st2.funk.tempW = Funk.tempW {}) ∧
    (∃ st3, writeBuiltinQuestionCall (writeExpr (MaxExprDepth + 1)) {}
        (.call (.base ⟨.base, .ioReader⟩) (.ident "src") .readU8 true []) 0 =
      .ok st3 ∧ st3.funk.usesScratch = Funk.usesScratch {} ∧
      st3.funk.tempW = Funk.tempW {} + 1) ∧
    (2 < 5 → skipStep 5 2 = .inl (5 - 2, 2)) ∧
    (¬ 2 < 5 → skipStep 5 2 = .inr 5) ∧
    (∀ s c, skipRun 5 [2, 3] = .inl (s, c) → s + c = 5 ∧ c = [2, 3].sum) ∧
    (∀ c, skipRun 5 [2, 3] = .inr c → c = 5) := by
  have h := C5_skip_lowering {} "src" "n" 5 0 [2, 3] 5 5 2 (by decide) (by decide)
  exact h

/-! ### C3: the 8-byte copy-from-slice peephole -/

/-- A pure value is never an error. -/
theorem pure_ne_error {α : Type} (a : α) (e : GErr) : (pure a : Except GErr α) ≠ .error e :=
  fun h => Except.noConfusion h

/-- An ok value is never an error. -/
theorem ok_ne_error {α : Type} (a : α) (e : GErr) : (Except.ok a : Except GErr α) ≠ .error e :=
  fun h => Except.noConfusion h

/-- A hard error is never a control-signal error. -/
theorem hard_ne_error {α : Type} {m : String} {e : GErr} (he : ∀ msg, e ≠ .hard msg) :
    (Except.error (.hard m) : Except GErr α) ≠ .error e := by
  intro h
  cases h
  exact he m rfl

/-- The not-a-builtin signal is not the error `e` when `e` differs. -/
theorem nsb_ne_error {α : Type} {e : GErr} (hens : e ≠ .noSuchBuiltin) :
    (Except.error .noSuchBuiltin : Except GErr α) ≠ .error e := by
  intro h
  cases h
  exact hens rfl

/-- Mapping over a computation cannot introduce an error. -/
theorem map_ne_error {α β : Type} {x : Except GErr α} {f : α → β} {e : GErr}
    (hx : x ≠ .error e) : (f <$> x) ≠ .error e := by
  cases x with
  | ok a => exact fun h => Except.noConfusion h
  | error e2 =>
    intro h
    rw [show (f <$> (Except.error e2 : Except GErr α) : Except GErr β) = .error e2 from rfl] at h
    cases h
    exact hx rfl

/-- A bind cannot produce a given error if neither side can. -/
theorem bind_ne_error {α β : Type} {x : Except GErr α} {f : α → Except GErr β} {e : GErr}
    (hx : x ≠ .error e) (hf : ∀ a, f a ≠ .error e) : (x >>= f) ≠ .error e := by
  cases x with
  | ok a => exact hf a
  | error e2 =>
    intro h
    rw [show (Except.error e2 >>= f : Except GErr β) = .error e2 from rfl] at h
    cases h
    exact hx rfl

/-- The peephole matcher agrees exactly with the spec's shape condition:
it matches iff the slice bounds reduce, after constant folding, to "no
lower bound, upper = literal 8" or "lower = E, upper = E + literal 8". -/
theorem matchFooIndexIndexPlus8_iff_spec (n : MExpr) :
    (matchFooIndexIndexPlus8 n).isSome = specSlice8Shape n := by
  cases n with
  | sliceOp al foo lo hiOpt =>
    cases lo with
    | none =>
      cases hiOpt with
      | none => rfl
      | some hi =>
        simp only [matchFooIndexIndexPlus8, specSlice8Shape]
        cases hcv : hi.constValue with
        | none => simp
        | some cv =>
          by_cases h8 : cv = 8
          · simp [h8]
          · simp [h8]
    | some e =>
      cases hiOpt with
      | none => rfl
      | some hi =>
        cases hi with
        | binPlus l r =>
          simp only [matchFooIndexIndexPlus8, specSlice8Shape]
          by_cases heq : l.eqb e
          · cases hcv : r.constValue with
            | none => simp [heq, hcv]
            | some cv =>
              by_cases h8 : cv = 8
              · simp [heq, hcv, h8]
              · simp [heq, hcv, h8]
          · simp [heq]
        | ident nm => rfl
        | lit t v =>
          simp only [matchFooIndexIndexPlus8, specSlice8Shape, MExpr.constValue]
          by_cases h8 : v = 8
          · simp [h8]
          · simp [h8]
        | dot l nm => rfl
        | unaryNeg r => rfl
        | assoc as => rfl
        | indexOp s l r => rfl
        | sliceOp al2 l m r => rfl
        | call rt rv m c as => rfl
  | ident nm => rfl
  | lit t v => rfl
  | dot l nm => rfl
  | binPlus l r => rfl
  | unaryNeg r => rfl
  | assoc as => rfl
  | indexOp s l r => rfl
  | call rt rv m c as => rfl

/-- C3.  The 8-byte memcpy peephole fires, replacing the generic
bounds-checked copy, if and only if the call is `copy_from_slice` with
exactly one argument and both the receiver and the argument are slice
expressions whose bounds reduce, after constant folding, to "no lower
bound, upper = literal 8" or "lower = E, upper = E + literal 8" (the
matcher agrees with that spec shape exactly); in every other case the
peephole signals optimization-not-applicable and the generic
`wuffs_base__slice_u8__copy_from_slice` lowering is emitted unchanged. -/
theorem C3_copy_peephole (wE : WExpr) (st : GState) (recv a : MExpr) (anm : String)
    (args : List (String × MExpr)) (m : MethodID) (seo : Bool) (depth : Nat)
    (r : Except GErr GState)
    (hwE : ∀ st2 n seo2 d2, wE st2 n seo2 d2 ≠ .error .optimizationNotApplicable) :
    ((matchFooIndexIndexPlus8 recv).isSome = specSlice8Shape recv) ∧
    (writeBuiltinSliceCopyFromSlice8 wE st recv .copyFromSlice [(anm, a)] depth =
        .error .optimizationNotApplicable ↔
      ¬ (specSlice8Shape recv = true ∧ specSlice8Shape a = true)) ∧
    (args.length ≠ 1 →
      writeBuiltinSliceCopyFromSlice8 wE st recv m args depth =
        .error .optimizationNotApplicable) ∧
    (m ≠ .copyFromSlice →
      writeBuiltinSliceCopyFromSlice8 wE st recv m args depth =
        .error .optimizationNotApplicable) ∧
    (writeBuiltinSliceCopyFromSlice8 wE st recv .copyFromSlice args depth =
        .error .optimizationNotApplicable →
      writeBuiltinSlice wE st recv .copyFromSlice args seo depth =
        (wE (st.writes "wuffs_base__slice_u8__copy_from_slice(") recv false depth >>=
          fun st2 => writeArgs wE (st2.writes ", ") args depth)) ∧
    (writeBuiltinSliceCopyFromSlice8 wE st recv .copyFromSlice args depth = r →
      r ≠ .error .optimizationNotApplicable →
      writeBuiltinSlice wE st recv .copyFromSlice args seo depth = r) := by
  refine ⟨matchFooIndexIndexPlus8_iff_spec recv, ?_, ?_, ?_, ?_, ?_⟩
  · simp only [writeBuiltinSliceCopyFromSlice8]
    rw [if_neg (by simp)]
    simp only [List.head?]
    cases hr : matchFooIndexIndexPlus8 recv with
    | none =>
      have hs : specSlice8Shape recv = false := by
        rw [← matchFooIndexIndexPlus8_iff_spec recv, hr]
        rfl
      simp [hs]
    | some pr =>
      obtain ⟨foo, fIdx⟩ := pr
      cases hb : matchFooIndexIndexPlus8 a with
      | none =>
        have hs : specSlice8Shape a = false := by
          rw [← matchFooIndexIndexPlus8_iff_spec a, hb]
          rfl
        simp [hs]
      | some pb =>
        obtain ⟨bar, bIdx⟩ := pb
        have hs1 : specSlice8Shape recv = true := by
          rw [← matchFooIndexIndexPlus8_iff_spec recv, hr]
          rfl
        have hs2 : specSlice8Shape a = true := by
          rw [← matchFooIndexIndexPlus8_iff_spec a, hb]
          rfl
        simp only [hs1, hs2, not_true, and_self, iff_false]
        cases fIdx with
        | none =>
          cases bIdx with
          | none =>
            refine bind_ne_error (hwE _ _ _ _) fun a1 => ?_
            refine bind_ne_error (pure_ne_error _ _) fun a2 => ?_
            exact map_ne_error (hwE _ _ _ _)
          | some bi =>
            refine bind_ne_error (hwE _ _ _ _) fun a1 => ?_
            refine bind_ne_error (pure_ne_error _ _) fun a2 => ?_
            refine bind_ne_error (hwE _ _ _ _) fun a3 => ?_
            exact map_ne_error (hwE _ _ _ _)
        | some fi =>
          cases bIdx with
          | none =>
            refine bind_ne_error (hwE _ _ _ _) fun a1 => ?_
            refine bind_ne_error (hwE _ _ _ _) fun a2 => ?_
            refine bind_ne_error (hwE _ _ _ _) fun a3 => ?_
            exact pure_ne_error _ _
          | some bi =>
            refine bind_ne_error (hwE _ _ _ _) fun a1 => ?_
            refine bind_ne_error (hwE _ _ _ _) fun a2 => ?_
            refine bind_ne_error (hwE _ _ _ _) fun a3 => ?_
            refine bind_ne_error (hwE _ _ _ _) fun a4 => ?_
            exact pure_ne_error _ _
  · intro hlen
    simp only [writeBuiltinSliceCopyFromSlice8]
    rw [if_pos (Or.inr hlen)]
  · intro hm
    simp only [writeBuiltinSliceCopyFromSlice8]
    rw [if_pos (Or.inl hm)]
  · intro h
    simp only [writeBuiltinSlice, h]
  · intro h hne
    cases r with
    | ok st2 => simp only [writeBuiltinSlice, h]
    | error e =>
      cases e with
      | noSuchBuiltin => simp only [writeBuiltinSlice, h]
      | optimizationNotApplicable => exact absurd rfl hne
      | hard msg => simp only [writeBuiltinSlice, h]
      | outOfGas => simp only [writeBuiltinSlice, h]

/-- C3 witness: `foo[.. 8].copy_from_slice!(s: bar[i .. i + 8])` fires the
peephole; a `bar[.. 9]` argument does not. -/
theorem C3_copy_peephole_witness :
    ((matchFooIndexIndexPlus8 (.sliceOp none (.ident "foo") none
        (some (.lit .num 8)))).isSome =
      specSlice8Shape (.sliceOp none (.ident "foo") none (some (.lit .num 8)))) ∧
    (writeBuiltinSliceCopyFromSlice8 (fun _ _ _ _ => .error (.hard "u")) {}
        (.sliceOp none (.ident "foo") none (some (.lit .num 8))) .copyFromSlice
        [("s", .sliceOp none (.ident "bar") (some (.ident "i"))
          (some (.binPlus (.ident "i") (.lit .num 8))))] 0 =
        .error .optimizationNotApplicable ↔
      ¬ (specSlice8Shape (.sliceOp none (.ident "foo") none (some (.lit .num 8))) = true ∧
        specSlice8Shape (.sliceOp none (.ident "bar") (some (.ident "i"))
          (some (.binPlus (.ident "i") (.lit .num 8)))) = true)) ∧
    (([("s", MExpr.sliceOp none (.ident "bar") none (some (.lit .num 9)))].length ≠ 1 →
      writeBuiltinSliceCopyFromSlice8 (fun _ _ _ _ => .error (.hard "u")) {}
        (.sliceOp none (.ident "foo") none (some (.lit .num 8))) .length
        [("s", .sliceOp none (.ident "bar") none (some (.lit .num 9)))] 0 =
        .error .optimizationNotApplicable)) ∧
    (MethodID.length ≠ .copyFromSlice →
      writeBuiltinSliceCopyFromSlice8 (fun _ _ _ _ => .error (.hard "u")) {}
        (.sliceOp none (.ident "foo") none (some (.lit .num 8))) .length
        [("s", .sliceOp none (.ident "bar") none (some (.lit .num 9)))] 0 =
        .error .optimizationNotApplicable) ∧
    (writeBuiltinSliceCopyFromSlice8 (fun _ _ _ _ => .error (.hard "u")) {}
        (.sliceOp none (.ident "foo") none (some (.lit .num 8))) .copyFromSlice
        [("s", .sliceOp none (.ident "bar") none (some (.lit .num 9)))] 0 =
        .error .optimizationNotApplicable →
      writeBuiltinSlice (fun _ _ _ _ => .error (.hard "u")) {}
        (.sliceOp none (.ident "foo") none (some (.lit .num 8))) .copyFromSlice
        [("s", .sliceOp none (.ident "bar") none (some (.lit .num 9)))] false 0 =
        ((fun (_ : GState) (_ : MExpr) (_ : Bool) (_ : Nat) =>
            (.error (.hard "u") : Except GErr GState))
          (GState.writes {} "wuffs_base__slice_u8__copy_from_slice(")
          (.sliceOp none (.ident "foo") none (some (.lit .num 8))) false 0 >>=
          fun st2 => writeArgs (fun _ _ _ _ => .error (.hard "u")) (st2.writes ", ")
            [("s", .sliceOp none (.ident "bar") none (some (.lit .num 9)))] 0)) ∧
    (writeBuiltinSliceCopyFromSlice8 (fun _ _ _ _ => .error (.hard "u")) {}
        (.sliceOp none (.ident "foo") none (some (.lit .num 8))) .copyFromSlice
        [("s", .sliceOp none (.ident "bar") none (some (.lit .num 9)))] 0 =
        .error (.hard "w") →
      (.error (.hard "w") : Except GErr GState) ≠ .error .optimizationNotApplicable →
      writeBuiltinSlice (fun _ _ _ _ => .error (.hard "u")) {}
        (.sliceOp none (.ident "foo") none (some (.lit .num 8))) .copyFromSlice
        [("s", .sliceOp none (.ident "bar") none (some (.lit .num 9)))] false 0 =
        .error (.hard "w")) :=
  C3_copy_peephole (fun _ _ _ _ => .error (.hard "u")) {}
    (.sliceOp none (.ident "foo") none (some (.lit .num 8)))
    (.sliceOp none (.ident "bar") (some (.ident "i"))
      (some (.binPlus (.ident "i") (.lit .num 8)))) "s"
    [("s", .sliceOp none (.ident "bar") none (some (.lit .num 9)))] .length false 0
    (.error (.hard "w")) (fun _ _ _ _ h => nomatch h)

/-! ### C6: error discipline of the dispatcher and the expression writer

The two internal control signals (`noSuchBuiltin`,
`optimizationNotApplicable`) must never escape the expression writer: the
following lemmas track, writer by writer, that a signal `e` that is not a
hard error (and, for the builtin side, not the dispatcher's own
not-a-builtin signal) can only arise from the recursive callback `wE`. -/

/-- `recvName` only succeeds or fails hard. -/
theorem recvName_ne {e : GErr} (he : ∀ msg, e ≠ .hard msg) (recv : MExpr) :
    recvName recv ≠ .error e := by
  unfold recvName
  split
  · exact ok_ne_error _ _
  · split
    · exact ok_ne_error _ _
    · exact hard_ne_error he
  · exact hard_ne_error he

/-- `sizeofType` only succeeds or fails hard. -/
theorem sizeofType_ne {e : GErr} (he : ∀ msg, e ≠ .hard msg) (t : MType) :
    sizeofType t ≠ .error e := by
  unfold sizeofType
  split <;> first
    | exact ok_ne_error _ _
    | exact hard_ne_error he

/-- The argument loop only fails through `wE`. -/
theorem writeArgsLoop_ne {wE : WExpr} {e : GErr} (sep : String)
    (hwE : ∀ st n seo d, wE st n seo d ≠ .error e) :
    ∀ (st : GState) (i : Nat) (args : List (String × MExpr)) (depth : Nat),
      writeArgsLoop wE sep st i args depth ≠ .error e
  | _, _, [], _ => ok_ne_error _ _
  | st, i, o :: rest, depth =>
    bind_ne_error (hwE _ _ _ _) fun a => writeArgsLoop_ne sep hwE a (i + 1) rest depth

/-- `writeArgs` only fails through `wE`. -/
theorem writeArgs_ne {wE : WExpr} {e : GErr}
    (hwE : ∀ st n seo d, wE st n seo d ≠ .error e)
    (st : GState) (args : List (String × MExpr)) (depth : Nat) :
    writeArgs wE st args depth ≠ .error e :=
  writeArgsLoop_ne _ hwE _ _ _ _

/-- The comma-separated argument loop only fails through `wE`. -/
theorem writeCommaArgs_ne {wE : WExpr} {e : GErr}
    (hwE : ∀ st n seo d, wE st n seo d ≠ .error e) :
    ∀ (st : GState) (args : List (String × MExpr)) (depth : Nat),
      writeCommaArgs wE st args depth ≠ .error e
  | _, [], _ => ok_ne_error _ _
  | st, o :: rest, depth =>
    bind_ne_error (hwE _ _ _ _) fun a => writeCommaArgs_ne hwE a rest depth

/-- The vector-constructor argument loop only fails through `wE`. -/
theorem writeVecArgs_ne {wE : WExpr} {e : GErr}
    (hwE : ∀ st n seo d, wE st n seo d ≠ .error e) :
    ∀ (st : GState) (i : Nat) (args : List (String × MExpr)) (depth : Nat),
      writeVecArgs wE st i args depth ≠ .error e
  | _, _, [], _ => ok_ne_error _ _
  | st, i, o :: rest, depth =>
    bind_ne_error (hwE _ _ _ _) fun a => writeVecArgs_ne hwE a (i + 1) rest depth

/-- The pixel-swizzler argument loop only fails through `wE`. -/
theorem writeSwizzleArgs_ne {wE : WExpr} {e : GErr}
    (hwE : ∀ st n seo d, wE st n seo d ≠ .error e) :
    ∀ (st : GState) (args : List (String × MExpr)) (depth : Nat),
      writeSwizzleArgs wE st args depth ≠ .error e
  | _, [], _ => ok_ne_error _ _
  | st, o :: rest, depth =>
    bind_ne_error (hwE _ _ _ _) fun a => writeSwizzleArgs_ne hwE a rest depth

/-- The associative-operand loop only fails through `wE`. -/
theorem writeAssocArgs_ne {wE : WExpr} {e : GErr} (opName : String)
    (hwE : ∀ st n seo d, wE st n seo d ≠ .error e) :
    ∀ (st : GState) (i : Nat) (args : List MExpr) (depth : Nat),
      writeAssocArgs wE opName st i args depth ≠ .error e
  | _, _, [], _ => ok_ne_error _ _
  | st, i, o :: rest, depth =>
    bind_ne_error (hwE _ _ _ _) fun a => writeAssocArgs_ne opName hwE a (i + 1) rest depth

/-- The pointer-`set` argument loop fails only hard or through `wE`. -/
theorem writeSetArgs_ne {wE : WExpr} {e : GErr} (he : ∀ msg, e ≠ .hard msg)
    (hwE : ∀ st n seo d, wE st n seo d ≠ .error e) :
    ∀ (st : GState) (u64ToFlicksIndex : Int) (i : Nat) (args : List (String × MExpr))
      (depth : Nat), writeSetArgs wE st u64ToFlicksIndex i args depth ≠ .error e
  | _, _, _, [], _ => ok_ne_error _ _
  | st, idx, i, (nm, v) :: rest, depth => by
    unfold writeSetArgs
    split
    · exact hard_ne_error he
    · exact bind_ne_error (hwE _ _ _ _) fun a =>
        writeSetArgs_ne he hwE _ idx (i + 1) rest depth

/-- `writeBuiltinIO` returns ok, the not-a-builtin signal, or errors from
`recvName`. -/
theorem writeBuiltinIO_ne {e : GErr} (he : ∀ msg, e ≠ .hard msg)
    (hens : e ≠ .noSuchBuiltin) (st : GState) (recv : MExpr) (method : MethodID) :
    writeBuiltinIO st recv method ≠ .error e := by
  unfold writeBuiltinIO
  repeat' first
    | exact ok_ne_error _ _
    | exact pure_ne_error _ _
    | exact hard_ne_error he
    | exact nsb_ne_error hens
    | exact recvName_ne he _
    | apply map_ne_error
    | (refine bind_ne_error ?_ fun _ => ?_)
    | dsimp only
    | split

/-- `writeBuiltinIOReader` never returns a control signal other than
not-a-builtin, given that `wE` does not. -/
theorem writeBuiltinIOReader_ne {wE : WExpr} {e : GErr} (he : ∀ msg, e ≠ .hard msg)
    (hens : e ≠ .noSuchBuiltin) (hwE : ∀ st n seo d, wE st n seo d ≠ .error e)
    (st : GState) (recv : MExpr) (method : MethodID) (args : List (String × MExpr))
    (seo : Bool) (depth : Nat) :
    writeBuiltinIOReader wE st recv method args seo depth ≠ .error e := by
  unfold writeBuiltinIOReader
  repeat' first
    | exact ok_ne_error _ _
    | exact pure_ne_error _ _
    | exact hard_ne_error he
    | exact nsb_ne_error hens
    | exact hwE _ _ _ _
    | exact recvName_ne he _
    | exact writeArgs_ne hwE _ _ _
    | exact writeBuiltinIO_ne he hens _ _ _
    | apply map_ne_error
    | (refine bind_ne_error ?_ fun _ => ?_)
    | dsimp only
    | split

/-- `writeBuiltinIOWriter` never returns a control signal other than
not-a-builtin, given that `wE` does not. -/
theorem writeBuiltinIOWriter_ne {wE : WExpr} {e : GErr} (he : ∀ msg, e ≠ .hard msg)
    (hens : e ≠ .noSuchBuiltin) (hwE : ∀ st n seo d, wE st n seo d ≠ .error e)
    (st : GState) (recv : MExpr) (method : MethodID) (args : List (String × MExpr))
    (seo : Bool) (depth : Nat) :
    writeBuiltinIOWriter wE st recv method args seo depth ≠ .error e := by
  unfold writeBuiltinIOWriter
  repeat' first
    | exact ok_ne_error _ _
    | exact pure_ne_error _ _
    | exact hard_ne_error he
    | exact nsb_ne_error hens
    | exact hwE _ _ _ _
    | exact recvName_ne he _
    | exact writeArgs_ne hwE _ _ _
    | exact writeCommaArgs_ne hwE _ _ _
    | exact writeBuiltinIO_ne he hens _ _ _
    | apply map_ne_error
    | (refine bind_ne_error ?_ fun _ => ?_)
    | dsimp only
    | split

/-- `writeBuiltinTokenWriter` never returns a control signal other than
not-a-builtin, given that `wE` does not. -/
theorem writeBuiltinTokenWriter_ne {wE : WExpr} {e : GErr} (he : ∀ msg, e ≠ .hard msg)
    (hens : e ≠ .noSuchBuiltin) (hwE : ∀ st n seo d, wE st n seo d ≠ .error e)
    (st : GState) (recv : MExpr) (method : MethodID) (args : List (String × MExpr))
    (depth : Nat) :
    writeBuiltinTokenWriter wE st recv method args depth ≠ .error e := by
  unfold writeBuiltinTokenWriter
  repeat' first
    | exact ok_ne_error _ _
    | exact pure_ne_error _ _
    | exact hard_ne_error he
    | exact nsb_ne_error hens
    | exact hwE _ _ _ _
    | exact recvName_ne he _
    | exact writeBuiltinIO_ne he hens _ _ _
    | apply map_ne_error
    | (refine bind_ne_error ?_ fun _ => ?_)
    | dsimp only
    | split

/-- The CRC32 writer fails only hard or through `wE`. -/
theorem writeBuiltinCPUArchARMCRC32_ne {wE : WExpr} {e : GErr} (he : ∀ msg, e ≠ .hard msg)
    (hwE : ∀ st n seo d, wE st n seo d ≠ .error e)
    (st : GState) (recv : MExpr) (method : MethodID) (args : List (String × MExpr))
    (depth : Nat) :
    writeBuiltinCPUArchARMCRC32 wE st recv method args depth ≠ .error e := by
  unfold writeBuiltinCPUArchARMCRC32
  repeat' first
    | exact ok_ne_error _ _
    | exact pure_ne_error _ _
    | exact hard_ne_error he
    | exact hwE _ _ _ _
    | exact writeCommaArgs_ne hwE _ _ _
    | apply map_ne_error
    | (refine bind_ne_error ?_ fun _ => ?_)
    | dsimp only
    | split

/-- The ARM Neon writer fails only hard or through `wE`. -/
theorem writeBuiltinCPUArchARMNeon_ne {wE : WExpr} {e : GErr} (he : ∀ msg, e ≠ .hard msg)
    (hwE : ∀ st n seo d, wE st n seo d ≠ .error e)
    (st : GState) (recv : MExpr) (method : MethodID) (args : List (String × MExpr))
    (depth : Nat) :
    writeBuiltinCPUArchARMNeon wE st recv method args depth ≠ .error e := by
  unfold writeBuiltinCPUArchARMNeon
  repeat' first
    | exact ok_ne_error _ _
    | exact pure_ne_error _ _
    | exact hard_ne_error he
    | exact hwE _ _ _ _
    | exact writeCommaArgs_ne hwE _ _ _
    | exact writeVecArgs_ne hwE _ _ _ _
    | apply map_ne_error
    | (refine bind_ne_error ?_ fun _ => ?_)
    | dsimp only
    | split

/-- The X86 writer fails only hard or through `wE`. -/
theorem writeBuiltinCPUArchX86_ne {wE : WExpr} {e : GErr} (he : ∀ msg, e ≠ .hard msg)
    (hwE : ∀ st n seo d, wE st n seo d ≠ .error e)
    (st : GState) (recv : MExpr) (method : MethodID) (args : List (String × MExpr))
    (depth : Nat) :
    writeBuiltinCPUArchX86 wE st recv method args depth ≠ .error e := by
  unfold writeBuiltinCPUArchX86
  repeat' first
    | exact ok_ne_error _ _
    | exact pure_ne_error _ _
    | exact hard_ne_error he
    | exact hwE _ _ _ _
    | exact writeCommaArgs_ne hwE _ _ _
    | exact writeVecArgs_ne hwE _ _ _ _
    | apply map_ne_error
    | (refine bind_ne_error ?_ fun _ => ?_)
    | dsimp only
    | split

/-- The CPU-arch dispatcher fails only hard or through `wE`. -/
theorem writeBuiltinCPUArch_ne {wE : WExpr} {e : GErr} (he : ∀ msg, e ≠ .hard msg)
    (hwE : ∀ st n seo d, wE st n seo d ≠ .error e)
    (st : GState) (recv : MExpr) (recvTyp : MType) (method : MethodID)
    (args : List (String × MExpr)) (depth : Nat) :
    writeBuiltinCPUArch wE st recv recvTyp method args depth ≠ .error e := by
  unfold writeBuiltinCPUArch
  split <;> first
    | exact writeBuiltinCPUArchARMCRC32_ne he hwE _ _ _ _ _
    | exact writeBuiltinCPUArchARMNeon_ne he hwE _ _ _ _ _
    | exact writeBuiltinCPUArchX86_ne he hwE _ _ _ _ _
    | exact hard_ne_error he

/-- `writeBuiltinNumType` never returns a control signal other than
not-a-builtin, given that `wE` does not. -/
theorem writeBuiltinNumType_ne {wE : WExpr} {e : GErr} (he : ∀ msg, e ≠ .hard msg)
    (hens : e ≠ .noSuchBuiltin) (hwE : ∀ st n seo d, wE st n seo d ≠ .error e)
    (st : GState) (recv : MExpr) (recvTyp : MType) (method : MethodID)
    (args : List (String × MExpr)) (depth : Nat) :
    writeBuiltinNumType wE st recv recvTyp method args depth ≠ .error e := by
  unfold writeBuiltinNumType
  repeat' first
    | exact ok_ne_error _ _
    | exact pure_ne_error _ _
    | exact hard_ne_error he
    | exact nsb_ne_error hens
    | exact hwE _ _ _ _
    | exact sizeofType_ne he _
    | apply map_ne_error
    | (refine bind_ne_error ?_ fun _ => ?_)
    | dsimp only
    | split

/-- `writeBuiltinTable` never returns a control signal other than
not-a-builtin, given that `wE` does not. -/
theorem writeBuiltinTable_ne {wE : WExpr} {e : GErr} (he : ∀ msg, e ≠ .hard msg)
    (hens : e ≠ .noSuchBuiltin) (hwE : ∀ st n seo d, wE st n seo d ≠ .error e)
    (st : GState) (recv : MExpr) (method : MethodID) (args : List (String × MExpr))
    (depth : Nat) :
    writeBuiltinTable wE st recv method args depth ≠ .error e := by
  unfold writeBuiltinTable
  repeat' first
    | exact ok_ne_error _ _
    | exact pure_ne_error _ _
    | exact hard_ne_error he
    | exact nsb_ne_error hens
    | exact hwE _ _ _ _
    | exact writeArgs_ne hwE _ _ _
    | apply map_ne_error
    | (refine bind_ne_error ?_ fun _ => ?_)
    | dsimp only
    | split

/-- The 8-byte-copy peephole fails only with its dedicated
optimization-not-applicable signal, hard errors, or through `wE`. -/
theorem writeBuiltinSliceCopyFromSlice8_ne {wE : WExpr} {e : GErr}
    (he : ∀ msg, e ≠ .hard msg) (heo : e ≠ .optimizationNotApplicable)
    (hwE : ∀ st n seo d, wE st n seo d ≠ .error e)
    (st : GState) (recv : MExpr) (method : MethodID) (args : List (String × MExpr))
    (depth : Nat) :
    writeBuiltinSliceCopyFromSlice8 wE st recv method args depth ≠ .error e := by
  unfold writeBuiltinSliceCopyFromSlice8
  repeat' first
    | exact ok_ne_error _ _
    | exact pure_ne_error _ _
    | exact hard_ne_error he
    | exact (fun h => by cases h; exact heo rfl)
    | exact hwE _ _ _ _
    | apply map_ne_error
    | (refine bind_ne_error ?_ fun _ => ?_)
    | dsimp only
    | split

/-- `writeBuiltinSlice` never returns a control signal other than
not-a-builtin, given that `wE` does not: in particular the peephole's
optimization-not-applicable signal is consumed internally. -/
theorem writeBuiltinSlice_ne {wE : WExpr} {e : GErr} (he : ∀ msg, e ≠ .hard msg)
    (hens : e ≠ .noSuchBuiltin) (hwE : ∀ st n seo d, wE st n seo d ≠ .error e)
    (st : GState) (recv : MExpr) (method : MethodID) (args : List (String × MExpr))
    (seo : Bool) (depth : Nat) :
    writeBuiltinSlice wE st recv method args seo depth ≠ .error e := by
  unfold writeBuiltinSlice
  by_cases heo : e = .optimizationNotApplicable
  · subst heo
    repeat' first
      | exact ok_ne_error _ _
      | exact pure_ne_error _ _
      | exact hard_ne_error he
      | exact nsb_ne_error hens
      | exact hwE _ _ _ _
      | exact writeArgs_ne hwE _ _ _
      | assumption
      | apply map_ne_error
      | (refine bind_ne_error ?_ fun _ => ?_)
      | dsimp only
      | split
  · repeat' first
      | exact ok_ne_error _ _
      | exact pure_ne_error _ _
      | exact hard_ne_error he
      | exact nsb_ne_error hens
      | exact hwE _ _ _ _
      | exact writeArgs_ne hwE _ _ _
      | exact writeBuiltinSliceCopyFromSlice8_ne he heo hwE _ _ _ _ _
      | apply map_ne_error
      | (refine bind_ne_error ?_ fun _ => ?_)
      | dsimp only
      | split

/-- `writeBuiltinCall` (the dispatcher) produces either emitted output, the
dedicated not-a-builtin signal, or hard errors — never the peephole's
internal signal, given that `wE` does not produce it. -/
theorem writeBuiltinCall_ne {wE : WExpr} {e : GErr} (he : ∀ msg, e ≠ .hard msg)
    (hens : e ≠ .noSuchBuiltin) (hwE : ∀ st n seo d, wE st n seo d ≠ .error e)
    (st : GState) (n : MExpr) (seo : Bool) (depth : Nat) :
    writeBuiltinCall wE st n seo depth ≠ .error e := by
  unfold writeBuiltinCall
  repeat' first
    | exact ok_ne_error _ _
    | exact pure_ne_error _ _
    | exact hard_ne_error he
    | exact nsb_ne_error hens
    | exact hwE _ _ _ _
    | exact recvName_ne he _
    | exact writeSetArgs_ne he hwE _ _ _ _ _
    | exact writeBuiltinSlice_ne he hens hwE _ _ _ _ _ _
    | exact writeBuiltinTable_ne he hens hwE _ _ _ _ _
    | exact writeBuiltinNumType_ne he hens hwE _ _ _ _ _ _
    | exact writeBuiltinCPUArch_ne he hwE _ _ _ _ _ _
    | exact writeBuiltinIOReader_ne he hens hwE _ _ _ _ _ _
    | exact writeBuiltinIOWriter_ne he hens hwE _ _ _ _ _ _
    | exact writeBuiltinTokenWriter_ne he hens hwE _ _ _ _ _
    | exact writeSwizzleArgs_ne hwE _ _ _
    | apply map_ne_error
    | (refine bind_ne_error ?_ fun _ => ?_)
    | dsimp only
    | split

/-- The constant branch prints or fails hard. -/
theorem writeExprConst_ne {e : GErr} (he : ∀ msg, e ≠ .hard msg)
    (st : GState) (t : LitType) (cv : Int) : writeExprConst st t cv ≠ .error e := by
  unfold writeExprConst
  repeat' first
    | exact ok_ne_error _ _
    | exact hard_ne_error he
    | split

/-- The unary-operator writer fails only hard or through `wE`. -/
theorem writeExprUnaryOp_ne {wE : WExpr} {e : GErr} (he : ∀ msg, e ≠ .hard msg)
    (hwE : ∀ st n seo d, wE st n seo d ≠ .error e)
    (st : GState) (n : MExpr) (depth : Nat) : writeExprUnaryOp wE st n depth ≠ .error e := by
  unfold writeExprUnaryOp
  repeat' first
    | exact hwE _ _ _ _
    | exact hard_ne_error he
    | split

/-- The binary-operator writer fails only hard or through `wE`. -/
theorem writeExprBinaryOp_ne {wE : WExpr} {e : GErr} (he : ∀ msg, e ≠ .hard msg)
    (hwE : ∀ st n seo d, wE st n seo d ≠ .error e)
    (st : GState) (n : MExpr) (depth : Nat) : writeExprBinaryOp wE st n depth ≠ .error e := by
  unfold writeExprBinaryOp
  repeat' first
    | exact ok_ne_error _ _
    | exact pure_ne_error _ _
    | exact hard_ne_error he
    | exact hwE _ _ _ _
    | apply map_ne_error
    | (refine bind_ne_error ?_ fun _ => ?_)
    | dsimp only
    | split

/-- The associative-operator writer fails only hard or through `wE`. -/
theorem writeExprAssociativeOp_ne {wE : WExpr} {e : GErr} (he : ∀ msg, e ≠ .hard msg)
    (hwE : ∀ st n seo d, wE st n seo d ≠ .error e)
    (st : GState) (n : MExpr) (depth : Nat) :
    writeExprAssociativeOp wE st n depth ≠ .error e := by
  unfold writeExprAssociativeOp
  repeat' first
    | exact writeAssocArgs_ne _ hwE _ _ _ _
    | exact hard_ne_error he
    | split

/-- The user-defined-call fallback fails only hard or through `wE`. -/
theorem writeExprUserDefinedCall_ne {wE : WExpr} {e : GErr} (he : ∀ msg, e ≠ .hard msg)
    (hwE : ∀ st n seo d, wE st n seo d ≠ .error e)
    (st : GState) (recvTyp : MType) (recv : MExpr) (method : MethodID)
    (args : List (String × MExpr)) (depth : Nat) :
    writeExprUserDefinedCall wE st recvTyp recv method args depth ≠ .error e := by
  unfold writeExprUserDefinedCall
  repeat' first
    | exact ok_ne_error _ _
    | exact pure_ne_error _ _
    | exact hard_ne_error he
    | exact hwE _ _ _ _
    | exact writeArgs_ne hwE _ _ _
    | apply map_ne_error
    | (refine bind_ne_error ?_ fun _ => ?_)
    | dsimp only
    | split

/-- The `reset` fallback fails only hard or through `wE`. -/
theorem writeExprReset_ne {wE : WExpr} {e : GErr} (he : ∀ msg, e ≠ .hard msg)
    (hwE : ∀ st n seo d, wE st n seo d ≠ .error e)
    (st : GState) (recvTyp : MType) (recv : MExpr) (depth : Nat) :
    writeExprReset wE st recvTyp recv depth ≠ .error e := by
  unfold writeExprReset
  repeat' first
    | exact ok_ne_error _ _
    | exact pure_ne_error _ _
    | exact hard_ne_error he
    | exact hwE _ _ _ _
    | apply map_ne_error
    | (refine bind_ne_error ?_ fun _ => ?_)
    | dsimp only
    | split

/-- `writeExprOther` catches exactly the not-a-builtin signal from the
dispatcher and falls back; neither internal control signal escapes it,
given that `wE` obeys the same discipline. -/
theorem writeExprOther_ne {wE : WExpr} {e : GErr}
    (hsent : e = .noSuchBuiltin ∨ e = .optimizationNotApplicable)
    (hwE : ∀ st n seo d, wE st n seo d ≠ .error e)
    (st : GState) (n : MExpr) (seo : Bool) (depth : Nat) :
    writeExprOther wE st n seo depth ≠ .error e := by
  have he : ∀ msg, e ≠ .hard msg := by
    intro msg hcon
    cases hsent with
    | inl h => rw [h] at hcon; exact GErr.noConfusion hcon
    | inr h => rw [h] at hcon; exact GErr.noConfusion hcon
  unfold writeExprOther
  cases hsent with
  | inl hns =>
    subst hns
    repeat' first
      | exact ok_ne_error _ _
      | exact pure_ne_error _ _
      | exact hard_ne_error he
      | exact hwE _ _ _ _
      | exact writeExprReset_ne he hwE _ _ _ _
      | exact writeExprUserDefinedCall_ne he hwE _ _ _ _ _ _
      | assumption
      | apply map_ne_error
      | (refine bind_ne_error ?_ fun _ => ?_)
      | dsimp only
      | split
  | inr hopt =>
    subst hopt
    repeat' first
      | exact ok_ne_error _ _
      | exact pure_ne_error _ _
      | exact hard_ne_error he
      | exact hwE _ _ _ _
      | exact writeExprReset_ne he hwE _ _ _ _
      | exact writeExprUserDefinedCall_ne he hwE _ _ _ _ _ _
      | exact writeBuiltinCall_ne he (fun h2 => GErr.noConfusion h2) hwE _ _ _ _
      | apply map_ne_error
      | (refine bind_ne_error ?_ fun _ => ?_)
      | dsimp only
      | split

/-- Neither internal control signal ever escapes the expression writer. -/
theorem writeExpr_ne_sentinel (gas : Nat) :
    ∀ {e : GErr}, (e = .noSuchBuiltin ∨ e = .optimizationNotApplicable) →
    ∀ (st : GState) (n : MExpr) (seo : Bool) (depth : Nat),
      writeExpr gas st n seo depth ≠ .error e := by
  induction gas with
  | zero =>
    intro e hsent st n seo depth hcon
    simp only [writeExpr] at hcon
    cases hsent with
    | inl h => rw [h] at hcon; exact GErr.noConfusion (Except.error.inj hcon)
    | inr h => rw [h] at hcon; exact GErr.noConfusion (Except.error.inj hcon)
  | succ gas ih =>
    intro e hsent st n seo depth
    have he : ∀ msg, e ≠ .hard msg := by
      intro msg hcon
      cases hsent with
      | inl h => rw [h] at hcon; exact GErr.noConfusion hcon
      | inr h => rw [h] at hcon; exact GErr.noConfusion hcon
    have hwE : ∀ st2 n2 seo2 d2, writeExpr gas st2 n2 seo2 d2 ≠ .error e :=
      fun st2 n2 seo2 d2 => ih hsent st2 n2 seo2 d2
    simp only [writeExpr]
    split
    · exact hard_ne_error he
    · split
      · exact writeExprConst_ne he _ _ _
      · exact writeExprUnaryOp_ne he hwE _ _ _
      · exact writeExprBinaryOp_ne he hwE _ _ _
      · exact writeExprAssociativeOp_ne he hwE _ _ _
      · exact writeExprOther_ne hsent hwE _ _ _ _

/-- Running the expression writer on an `h`-deep negation chain succeeds
whenever the starting depth leaves room under the ceiling and the fuel
covers the chain. -/
theorem negChain_ok (h : Nat) : ∀ (gas : Nat) (st : GState) (seo : Bool) (d : Nat),
    h + d ≤ MaxExprDepth → h + 1 ≤ gas →
    writeExpr gas st (negChain h) seo d
      = .ok ((chainPrefix h st).writes (vPrefix ++ "x")) := by
  induction h with
  | zero =>
    intro gas st seo d hd hg
    match gas, hg with
    | gas + 1, _ =>
      simp only [negChain, writeExpr, chainPrefix]
      rw [if_neg (Nat.not_lt.mpr (by omega))]
      simp [writeExprOther]
  | succ h ih =>
    intro gas st seo d hd hg
    match gas, hg with
    | gas + 1, _ =>
      simp only [negChain, writeExpr]
      rw [if_neg (Nat.not_lt.mpr (by omega))]
      simp only [writeExprUnaryOp]
      rw [ih gas (st.writes " - ") false (d + 1) (by omega) (by omega)]
      simp [chainPrefix]

/-- Running the expression writer on an `h`-deep negation chain fails
with the depth error as soon as the chain overruns the ceiling, for any
fuel at least the embedding's canonical amount. -/
theorem negChain_err (h : Nat) : ∀ (g : Nat) (st : GState) (seo : Bool) (d : Nat),
    MaxExprDepth < h + d → MaxExprDepth + 2 ≤ (g + 1) + d →
    writeExpr (g + 1) st (negChain h) seo d
      = .error (.hard "expression recursion depth too large") := by
  induction h with
  | zero =>
    intro g st seo d hd hg
    simp only [negChain, writeExpr]
    rw [if_pos (by omega)]
  | succ h ih =>
    intro g st seo d hd hg
    by_cases hdd : MaxExprDepth < d
    · simp only [negChain, writeExpr]
      rw [if_pos hdd]
    · match g, (by omega : 1 ≤ g) with
      | g + 1, _ =>
        simp only [negChain, writeExpr]
        rw [if_neg hdd]
        simp only [writeExprUnaryOp]
        exact ih g (st.writes " - ") false (d + 1) (by omega) (by omega)

/-- C7: the expression writer enforces the recursion-depth ceiling: with
any fuel, a call already past the ceiling immediately returns the
reported depth error (not a crash or a fuel artifact); and on the family
of arbitrarily deep negation chains, the writer succeeds exactly up to
the ceiling and reports the depth error for every deeper tree, the depth
counter advancing by one per nesting level. -/
theorem C7_depth_ceiling
    (gas depth : Nat) (st : GState) (n : MExpr) (seo : Bool)
    (hd : MaxExprDepth < depth) :
    writeExpr (gas + 1) st n seo depth
      = .error (.hard "expression recursion depth too large") ∧
    (∀ (h : Nat) (st2 : GState) (seo2 : Bool), h ≤ MaxExprDepth →
      writeExprTop st2 (negChain h) seo2
        = .ok ((chainPrefix h st2).writes (vPrefix ++ "x"))) ∧
    (∀ (h : Nat) (st2 : GState) (seo2 : Bool), MaxExprDepth < h →
      writeExprTop st2 (negChain h) seo2
        = .error (.hard "expression recursion depth too large")) := by
  refine ⟨?_, ?_, ?_⟩
  · simp only [writeExpr]
    rw [if_pos hd]
  · intro h st2 seo2 hh
    exact negChain_ok h (MaxExprDepth + 2) st2 seo2 0 (by omega) (by omega)
  · intro h st2 seo2 hh
    exact negChain_err h (MaxExprDepth + 1) st2 seo2 0 (by omega) (by omega)

/-- C7 witness: the depth error at depth 256 (just past the ceiling) on a
plain identifier, plus the chain dichotomy. -/
theorem C7_depth_ceiling_witness :
    (writeExpr (0 + 1) {} (.ident "x") false 256
      = .error (.hard "expression recursion depth too large")) ∧
    (∀ (h : Nat) (st2 : GState) (seo2 : Bool), h ≤ MaxExprDepth →
      writeExprTop st2 (negChain h) seo2
        = .ok ((chainPrefix h st2).writes (vPrefix ++ "x"))) ∧
    (∀ (h : Nat) (st2 : GState) (seo2 : Bool), MaxExprDepth < h →
      writeExprTop st2 (negChain h) seo2
        = .error (.hard "expression recursion depth too large")) :=
  C7_depth_ceiling 0 256 {} (.ident "x") false (by decide)

/-- C8 (amended): on a pointer or nullable-pointer receiver only `set` is
recognized, and only for the image-config and frame-config receiver
types; every other method or pointer receiver type yields the
not-a-builtin sentinel.  For the frame-config receiver the flicks cast is
applied to the argument at the fixed position 1, whose name is then
required to be "duration" on pain of a hard error: the argument is
selected by position, with the name only validated. -/
theorem C8_ptr_set_positional (wE : WExpr) (st : GState)
    (inner : MType) (recv : MExpr) (method : MethodID) (coroutine : Bool)
    (args : List (String × MExpr)) (seo : Bool) (depth : Nat)
    (d : Deco) (hd : d = .nptr ∨ d = .ptr)
    (hm : method ≠ .set) :
    writeBuiltinCall wE st (.call (.deco d inner) recv method coroutine args) seo depth
      = .error .noSuchBuiltin ∧
    (∀ (nm2 rnm : String), writeBuiltinCall wE st
        (.call (.deco d (.base ⟨.base, .userDefined nm2⟩)) (.ident rnm) .set coroutine args)
        seo depth
      = .error .noSuchBuiltin) ∧
    (∀ (e0 e1 : MExpr) (st2 : GState),
      writeBuiltinCall okWE st2
        (.call (.deco d (.base ⟨.base, .frameConfig⟩)) (.ident "fc") .set coroutine
          [("other", e0), ("duration", e1)]) seo depth
      = .ok ((((((st2.writes ("wuffs_base__frame_config__set(\n" ++ vPrefix ++ "fc")).writes
          ",\n").writes ",\n").writes "((wuffs_base__flicks)(").writes "))").writes ")")) ∧
    (∀ (e0 e1 : MExpr) (st2 : GState),
      writeBuiltinCall okWE st2
        (.call (.deco d (.base ⟨.base, .frameConfig⟩)) (.ident "fc") .set coroutine
          [("duration", e0), ("other", e1)]) seo depth
      = .error (.hard "cgen: internal error: inconsistent frame_config.set argument")) ∧
    (∀ (e0 : MExpr) (st2 : GState),
      writeBuiltinCall okWE st2
        (.call (.deco d (.base ⟨.base, .frameConfig⟩)) (.ident "fc") .set coroutine
          [("duration", e0)]) seo depth
      = .ok (((st2.writes ("wuffs_base__frame_config__set(\n" ++ vPrefix ++ "fc")).writes
          ",\n").writes ")")) := by
  refine ⟨?_, ?_, ?_, ?_, ?_⟩
  · cases hd with
    | inl h =>
      subst h
      simp only [writeBuiltinCall, MType.decorator]
      rw [if_pos hm]
    | inr h =>
      subst h
      simp only [writeBuiltinCall, MType.decorator]
      rw [if_pos hm]
  · intro nm2 rnm
    cases hd with
    | inl h => subst h; rfl
    | inr h => subst h; rfl
  · intro e0 e1 st2
    cases hd with
    | inl h => subst h; rfl
    | inr h => subst h; rfl
  · intro e0 e1 st2
    cases hd with
    | inl h => subst h; rfl
    | inr h => subst h; rfl
  · intro e0 st2
    cases hd with
    | inl h => subst h; rfl
    | inr h => subst h; rfl

/-- C8 witness: the amended behavior at a concrete non-`set` method and
pointer decorator. -/
theorem C8_ptr_set_positional_witness :
    (writeBuiltinCall okWE {}
        (.call (.deco .ptr (.base ⟨.base, .frameConfig⟩)) (.ident "fc") .length false [])
        false 0
      = .error .noSuchBuiltin) ∧
    (∀ (nm2 rnm : String), writeBuiltinCall okWE {}
        (.call (.deco .ptr (.base ⟨.base, .userDefined nm2⟩)) (.ident rnm) .set false [])
        false 0
      = .error .noSuchBuiltin) ∧
    (∀ (e0 e1 : MExpr) (st2 : GState),
      writeBuiltinCall okWE st2
        (.call (.deco .ptr (.base ⟨.base, .frameConfig⟩)) (.ident "fc") .set false
          [("other", e0), ("duration", e1)]) false 0
      = .ok ((((((st2.writes ("wuffs_base__frame_config__set(\n" ++ vPrefix ++ "fc")).writes
          ",\n").writes ",\n").writes "((wuffs_base__flicks)(").writes "))").writes ")")) ∧
    (∀ (e0 e1 : MExpr) (st2 : GState),
      writeBuiltinCall okWE st2
        (.call (.deco .ptr (.base ⟨.base, .frameConfig⟩)) (.ident "fc") .set false
          [("duration", e0), ("other", e1)]) false 0
      = .error (.hard "cgen: internal error: inconsistent frame_config.set argument")) ∧
    (∀ (e0 : MExpr) (st2 : GState),
      writeBuiltinCall okWE st2
        (.call (.deco .ptr (.base ⟨.base, .frameConfig⟩)) (.ident "fc") .set false
          [("duration", e0)]) false 0
      = .ok (((st2.writes ("wuffs_base__frame_config__set(\n" ++ vPrefix ++ "fc")).writes
          ",\n").writes ")")) :=
  C8_ptr_set_positional okWE {} (.base ⟨.base, .frameConfig⟩) (.ident "fc")
    .length false [] false 0 .ptr (Or.inr rfl) (by decide)

/-- C8 counterexample to the by-name reading: a frame-config `set` whose
sole argument is NAMED "duration" but sits at position 0 is lowered with
no flicks cast at all, and a "duration"-named argument at position 0
followed by another argument is rejected with a hard error; under
by-name selection both would have wrapped the named argument. -/
theorem C8_by_name_counterexample :
    (writeBuiltinCall okWE {}
        (.call (.deco .ptr (.base ⟨.base, .frameConfig⟩)) (.ident "fc") .set false
          [("duration", .lit .num 5)]) false 0
      = .ok (((({} : GState).writes ("wuffs_base__frame_config__set(\n" ++ vPrefix ++ "fc")).writes
          ",\n").writes ")")) ∧
    (writeBuiltinCall okWE {}
        (.call (.deco .ptr (.base ⟨.base, .frameConfig⟩)) (.ident "fc") .set false
          [("duration", .lit .num 5), ("other", .lit .num 6)]) false 0
      = .error (.hard "cgen: internal error: inconsistent frame_config.set argument")) :=
  ⟨rfl, rfl⟩

/-- C9: each empty-I/O-buffer utility call succeeds and emits exactly the
reference "&empty_io_buffer"; the first one (flag unset) sets the
monotonic flag and appends the prologue declaration once, a later one
(flag set) leaves the whole function context untouched, so the
declaration is appended at most once and the flag is never cleared:
following any such call the flag is set, and a second call appends
nothing further to the prologue. -/
theorem C9_empty_io_buffer_once (wE : WExpr) (st : GState) (recv : MExpr)
    (m : MethodID) (coroutine : Bool) (args : List (String × MExpr))
    (seo : Bool) (depth : Nat)
    (hm : m = .emptyIOReader ∨ m = .emptyIOWriter) :
    ∃ st2,
      writeBuiltinCall wE st (.call (.base ⟨.base, .utility⟩) recv m coroutine args)
          seo depth = .ok st2 ∧
      st2.buf = st.buf ++ ["&empty_io_buffer"] ∧
      st2.funk.usesEmptyIOBuffer = true ∧
      (st.funk.usesEmptyIOBuffer = false →
        st2.funk.bPrologue = st.funk.bPrologue ++ [emptyIODecl]) ∧
      (st.funk.usesEmptyIOBuffer = true → st2.funk = st.funk) ∧
      (∀ m2, m2 = MethodID.emptyIOReader ∨ m2 = MethodID.emptyIOWriter →
        ∃ st3,
          writeBuiltinCall wE st2
              (.call (.base ⟨.base, .utility⟩) recv m2 coroutine args) seo depth
            = .ok st3 ∧
          st3.funk = st2.funk ∧ st3.buf = st2.buf ++ ["&empty_io_buffer"]) := by
  have key : ∀ (m3 : MethodID), m3 = .emptyIOReader ∨ m3 = .emptyIOWriter →
      ∀ (st4 : GState),
      writeBuiltinCall wE st4 (.call (.base ⟨.base, .utility⟩) recv m3 coroutine args)
          seo depth
        = .ok ((if st4.funk.usesEmptyIOBuffer then st4
            else { st4 with funk := { st4.funk with
                usesEmptyIOBuffer := true,
                bPrologue := st4.funk.bPrologue ++ [emptyIODecl] } }).writes
              "&empty_io_buffer") := by
    intro m3 hm3 st4
    cases hm3 with
    | inl h => subst h; rfl
    | inr h => subst h; rfl
  have key2 : ∀ (m3 : MethodID), m3 = .emptyIOReader ∨ m3 = .emptyIOWriter →
      ∀ (st4 : GState), st4.funk.usesEmptyIOBuffer = true →
      writeBuiltinCall wE st4 (.call (.base ⟨.base, .utility⟩) recv m3 coroutine args)
          seo depth = .ok (st4.writes "&empty_io_buffer") := by
    intro m3 hm3 st4 h4
    rw [key m3 hm3 st4, if_pos h4]
  by_cases hflag : st.funk.usesEmptyIOBuffer = true
  · refine ⟨st.writes "&empty_io_buffer", key2 m hm st hflag, rfl, hflag, ?_, ?_, ?_⟩
    · intro h; rw [hflag] at h; exact absurd h (by simp)
    · intro _; rfl
    · intro m2 hm2
      exact ⟨(st.writes "&empty_io_buffer").writes "&empty_io_buffer",
        key2 m2 hm2 _ hflag, rfl, rfl⟩
  · have hflag2 : st.funk.usesEmptyIOBuffer = false := by
      cases h : st.funk.usesEmptyIOBuffer with
      | true => exact absurd h hflag
      | false => rfl
    refine ⟨({ st with funk := { st.funk with
        usesEmptyIOBuffer := true,
        bPrologue := st.funk.bPrologue ++ [emptyIODecl] } }).writes "&empty_io_buffer",
      ?_, rfl, rfl, ?_, ?_, ?_⟩
    · rw [key m hm st, if_neg hflag]
    · intro _; rfl
    · intro h; rw [hflag2] at h; exact absurd h (by simp)
    · intro m2 hm2
      exact ⟨_, key2 m2 hm2 _ rfl, rfl, rfl⟩

/-- C9 witness: two consecutive empty-I/O-reader calls from a fresh
state: the declaration lands in the prologue exactly once. -/
theorem C9_empty_io_buffer_once_witness :
    ∃ st2,
      writeBuiltinCall okWE {}
          (.call (.base ⟨.base, .utility⟩) (.ident "u") .emptyIOReader false [])
          false 0 = .ok st2 ∧
      st2.buf = ({} : GState).buf ++ ["&empty_io_buffer"] ∧
      st2.funk.usesEmptyIOBuffer = true ∧
      (({} : GState).funk.usesEmptyIOBuffer = false →
        st2.funk.bPrologue = ({} : GState).funk.bPrologue ++ [emptyIODecl]) ∧
      (({} : GState).funk.usesEmptyIOBuffer = true → st2.funk = ({} : GState).funk) ∧
      (∀ m2, m2 = MethodID.emptyIOReader ∨ m2 = MethodID.emptyIOWriter →
        ∃ st3,
          writeBuiltinCall okWE st2
              (.call (.base ⟨.base, .utility⟩) (.ident "u") m2 false []) false 0
            = .ok st3 ∧
          st3.funk = st2.funk ∧ st3.buf = st2.buf ++ ["&empty_io_buffer"]) :=
  C9_empty_io_buffer_once okWE {} (.ident "u") .emptyIOReader false [] false 0
    (Or.inl rfl)

/-- C10: the receiver-name helper accepts exactly a bare identifier
(local-variable prefix) or a field selection on the distinguished "args"
identifier (argument prefix); every other receiver shape yields a hard
error — never the not-a-builtin sentinel — and a lowering that consults
it (the pointer-receiver `set` path) propagates that hard error, so the
expression writer aborts instead of falling back to the user-defined-call
lowering. -/
theorem C10_recv_name_discipline :
    (∀ nm, recvName (.ident nm) = .ok (vPrefix ++ nm)) ∧
    (∀ f, recvName (.dot (.ident "args") f) = .ok (aPrefix ++ f)) ∧
    (∀ recv e, recvName recv = .error e →
      e = .hard "recvName: cannot cgen this expression") ∧
    (∀ (wE : WExpr) (st : GState) (recv : MExpr) (coroutine : Bool)
        (args : List (String × MExpr)) (seo : Bool) (depth : Nat) (msg : String),
      recvName recv = .error (.hard msg) →
      writeBuiltinCall wE st
          (.call (.deco .ptr (.base ⟨.base, .frameConfig⟩)) recv .set coroutine args)
          seo depth
        = .error (.hard msg) ∧
      writeExprOther wE st
          (.call (.deco .ptr (.base ⟨.base, .frameConfig⟩)) recv .set coroutine args)
          seo depth
        = .error (.hard msg)) := by
  refine ⟨fun nm => rfl, fun f => rfl, ?_, ?_⟩
  · intro recv e h
    unfold recvName at h
    split at h
    · exact Except.noConfusion h
    · split at h
      · exact Except.noConfusion h
      · injection h with h2
        exact h2.symm
    · injection h with h2
      exact h2.symm
  · intro wE st recv coroutine args seo depth msg h
    have hcall : writeBuiltinCall wE st
        (.call (.deco .ptr (.base ⟨.base, .frameConfig⟩)) recv .set coroutine args)
        seo depth = .error (.hard msg) := by
      simp only [writeBuiltinCall, MType.decorator]
      rw [if_neg (by simp)]
      rw [show recvName recv = .error (.hard msg) from h]
      rfl
    refine ⟨hcall, ?_⟩
    simp only [writeExprOther, hcall]

/-- C10 witness: a literal receiver (neither an identifier nor an
args-field) hard-errors in `recvName`, and the pointer-`set` lowering and
the surrounding expression writer reproduce that hard error instead of
falling back. -/
theorem C10_recv_name_discipline_witness :
    recvName (.ident "x") = .ok (vPrefix ++ "x") ∧
    recvName (.dot (.ident "args") "src") = .ok (aPrefix ++ "src") ∧
    writeBuiltinCall okWE {}
        (.call (.deco .ptr (.base ⟨.base, .frameConfig⟩)) (.lit .num 0) .set false [])
        false 0
      = .error (.hard "recvName: cannot cgen this expression") ∧
    writeExprOther okWE {}
        (.call (.deco .ptr (.base ⟨.base, .frameConfig⟩)) (.lit .num 0) .set false [])
        false 0
      = .error (.hard "recvName: cannot cgen this expression") :=
  ⟨C10_recv_name_discipline.1 "x", C10_recv_name_discipline.2.1 "src",
    (C10_recv_name_discipline.2.2.2 okWE {} (.lit .num 0) false [] false 0
      "recvName: cannot cgen this expression" rfl).1,
    (C10_recv_name_discipline.2.2.2 okWE {} (.lit .num 0) false [] false 0
      "recvName: cannot cgen this expression" rfl).2⟩

/-- C6: for every call expression the builtin dispatcher either succeeds,
returns the dedicated not-a-builtin sentinel, or returns a hard error
(never the internal optimization signal and never the fuel artifact);
the expression writer's fallback branch catches exactly the sentinel,
replacing it with the reset / user-defined-call lowering, and passes
every other result (successes and hard errors) through unchanged; and
neither internal control signal ever escapes the canonical entry point
of the expression writer. -/
theorem C6_dispatch_error_discipline
    (wE : WExpr)
    (hns : ∀ st n seo d, wE st n seo d ≠ .error .noSuchBuiltin)
    (hopt : ∀ st n seo d, wE st n seo d ≠ .error .optimizationNotApplicable)
    (hgas : ∀ st n seo d, wE st n seo d ≠ .error .outOfGas)
    (st : GState) (recvTyp : MType) (recv : MExpr) (method : MethodID)
    (coroutine : Bool) (args : List (String × MExpr)) (seo : Bool) (depth : Nat) :
    ((∃ st2, writeBuiltinCall wE st (.call recvTyp recv method coroutine args) seo depth
        = .ok st2) ∨
      writeBuiltinCall wE st (.call recvTyp recv method coroutine args) seo depth
        = .error .noSuchBuiltin ∨
      (∃ msg, writeBuiltinCall wE st (.call recvTyp recv method coroutine args) seo depth
        = .error (.hard msg))) ∧
    (writeBuiltinCall wE st (.call recvTyp recv method coroutine args) seo depth
        = .error .noSuchBuiltin →
      writeExprOther wE st (.call recvTyp recv method coroutine args) seo depth
        = (if method = .reset then writeExprReset wE st recvTyp recv depth
           else writeExprUserDefinedCall wE st recvTyp recv method args depth)) ∧
    (∀ r, writeBuiltinCall wE st (.call recvTyp recv method coroutine args) seo depth = r →
      r ≠ .error .noSuchBuiltin →
      writeExprOther wE st (.call recvTyp recv method coroutine args) seo depth = r) ∧
    (∀ (st3 : GState) (n3 : MExpr) (seo3 : Bool),
      writeExprTop st3 n3 seo3 ≠ .error .noSuchBuiltin ∧
      writeExprTop st3 n3 seo3 ≠ .error .optimizationNotApplicable) := by
  refine ⟨?_, ?_, ?_, ?_⟩
  · cases h : writeBuiltinCall wE st (.call recvTyp recv method coroutine args) seo depth with
    | ok st2 => exact Or.inl ⟨st2, rfl⟩
    | error e =>
      cases e with
      | noSuchBuiltin => exact Or.inr (Or.inl rfl)
      | hard msg => exact Or.inr (Or.inr ⟨msg, rfl⟩)
      | optimizationNotApplicable =>
        exact absurd h (writeBuiltinCall_ne (fun _ h2 => GErr.noConfusion h2)
          (fun h2 => GErr.noConfusion h2) hopt _ _ _ _)
      | outOfGas =>
        exact absurd h (writeBuiltinCall_ne (fun _ h2 => GErr.noConfusion h2)
          (fun h2 => GErr.noConfusion h2) hgas _ _ _ _)
  · intro h
    simp only [writeExprOther, h]
  · intro r h hne
    cases r with
    | ok st2 => simp only [writeExprOther, h]
    | error e =>
      cases e with
      | noSuchBuiltin => exact absurd rfl hne
      | optimizationNotApplicable => simp only [writeExprOther, h]
      | hard msg => simp only [writeExprOther, h]
      | outOfGas => simp only [writeExprOther, h]
  · intro st3 n3 seo3
    exact ⟨writeExpr_ne_sentinel _ (Or.inl rfl) _ _ _ _,
      writeExpr_ne_sentinel _ (Or.inr rfl) _ _ _ _⟩

/-- C6 witness: the trichotomy, catch and pass-through properties at a
concrete user-package call with the always-succeeding callback. -/
theorem C6_dispatch_error_discipline_witness :
    ((∃ st2, writeBuiltinCall okWE {} userPkgCall false 0 = .ok st2) ∨
      writeBuiltinCall okWE {} userPkgCall false 0 = .error .noSuchBuiltin ∨
      (∃ msg, writeBuiltinCall okWE {} userPkgCall false 0 = .error (.hard msg))) ∧
    (writeBuiltinCall okWE {} userPkgCall false 0 = .error .noSuchBuiltin →
      writeExprOther okWE {} userPkgCall false 0
        = (if MethodID.other "bar" = .reset
           then writeExprReset okWE {} (.base ⟨.user "mylib", .userDefined "foo"⟩)
             (.ident "r") 0
           else writeExprUserDefinedCall okWE {}
             (.base ⟨.user "mylib", .userDefined "foo"⟩) (.ident "r")
             (.other "bar") [] 0)) ∧
    (∀ r, writeBuiltinCall okWE {} userPkgCall false 0 = r →
      r ≠ .error .noSuchBuiltin →
      writeExprOther okWE {} userPkgCall false 0 = r) ∧
    (∀ (st3 : GState) (n3 : MExpr) (seo3 : Bool),
      writeExprTop st3 n3 seo3 ≠ .error .noSuchBuiltin ∧
      writeExprTop st3 n3 seo3 ≠ .error .optimizationNotApplicable) :=
  C6_dispatch_error_discipline okWE
    (fun _51 _52 _53 _54 h => nomatch h) (fun _51 _52 _53 _54 h => nomatch h)
    (fun _51 _52 _53 _54 h => nomatch h)
    {} (.base ⟨.user "mylib", .userDefined "foo"⟩) (.ident "r") (.other "bar")
    false [] false 0

end Wuffs
